import Mathlib

/-!
# imapidle: account state machine, event aggregator and account set-up

A shallow embedding of `account.go` and `imapidle.go`.

* Go `int` is taken as the 64-bit two's complement integer (`wrapInt`), and
  `uint32` values (`MailboxStatus.Messages`) as naturals below `2^32`.
* Channels that the code only tests against `nil` are booleans (`true` = non-nil).
* Results of calls that leave the program (network, shell, timers) are passed
  in as explicit outcome values.
* A send on `eventc`, a call of `dampT.Reset` and a call of `runUpdateScript`
  are recorded in the value a function returns.
-/

namespace Imapidle

/-! ## Machine integers and strings -/

/-- Go `int` on a 64-bit target: the two's complement representative of `x`. -/
def wrapInt (x : Int) : Int :=
  (x + 9223372036854775808) % 18446744073709551616 - 9223372036854775808

/-- Go `error` values are carried as their message. -/
abbrev GoError := String

/-- Pieces of a character list between occurrences of `sep`. -/
def splitChars (sep : Char) : List Char → List (List Char)
  | [] => [[]]
  | c :: cs =>
    if c = sep then [] :: splitChars sep cs
    else
      match splitChars sep cs with
      | [] => [[c]]
      | h :: t => (c :: h) :: t

/-- Go `strings.Split(s, ":")`. -/
def stringsSplitColon (s : String) : List String :=
  (splitChars ':' s.data).map String.mk

/-- Go `strings.Join(xs, ":")`. -/
def stringsJoinColon : List String → String
  | [] => ""
  | [x] => x
  | x :: y :: rest => x ++ ":" ++ stringsJoinColon (y :: rest)

/-! ## Data model (`parse.go`, `account.go`) -/

structure Channel where
  Name : String
  Far : String
deriving DecidableEq, Repr

structure AccountConfig where
  Name : String
  Host : String
  Port : Int
  StartTLS : Bool
  SSLVersion : String
  User : String
  PassCmd : String
  password : String
deriving DecidableEq, Repr

structure IMAPStore where
  Name : String
  Account : String
  Config : AccountConfig
  Channels : List Channel
deriving DecidableEq, Repr

/-- The library's `client.Client`: a session handle and its `Updates` binding
(`true` = bound to a channel). -/
structure Client where
  conn : Nat
  Updates : Bool
deriving DecidableEq, Repr

/-- The runtime `Account`. `c = none` is the nil session; the channel and
timer fields hold `true` when non-nil. -/
structure Account extends AccountConfig where
  Channels : List Channel
  UpdateName : String
  PollInt : Nat
  MsgCount : Int
  c : Option Client
  donec : Bool
  eventc : Bool
  stopc : Bool
  updatec : Bool
  t : Bool
  idleOk : Bool
deriving DecidableEq, Repr

abbrev EventCode := Int

def OfflineEvent : EventCode := 0
def NewMailEvent : EventCode := 1
def FullUpdateEvent : EventCode := 2

/-- An `Event`; `A = none` is the nil account pointer. -/
structure Event where
  E : EventCode
  A : Option Account
deriving DecidableEq, Repr

/-! ## Mailbox selection and the poll check (`account.go`) -/

/-- `Account.selectInbox`: `sel` is what `a.c.Select("INBOX", false)` returned,
an error or the status's `Messages` field. -/
def selectInbox (sel : Except GoError Nat) (a : Account) : Account × Option GoError :=
  match sel with
  | .error err => (a, some err)
  | .ok messages => ({ a with MsgCount := wrapInt (Int.ofNat messages) }, none)

/-- `Account.checkForNew`: the account afterwards, the returned count and error. -/
def checkForNew (sel : Except GoError Nat) (a : Account) : Account × Int × Option GoError :=
  let old := a.MsgCount
  match selectInbox sel a with
  | (a1, some err) => (a1, 0, some err)
  | (a1, none) =>
    let newCount := if old ≠ 0 then wrapInt (a1.MsgCount - old) else 0
    (a1, newCount, none)

/-- `Account.NewMail`: the event sent on `a.eventc`. -/
def NewMail (a : Account) (count : Int) : List Event :=
  if count = 0 then [⟨FullUpdateEvent, some a⟩]
  else [⟨NewMailEvent, some a⟩]

/-- `Account.CheckForNew`: the account afterwards and the events sent. -/
def CheckForNew (sel : Except GoError Nat) (a : Account) : Account × List Event :=
  match checkForNew sel a with
  | (a1, _, some _) => (a1, [])
  | (a1, newCount, none) =>
    if newCount ≠ 0 then (a1, NewMail a1 newCount)
    else (a1, [])

/-! ## Login, watch set-up and tear-down (`account.go`) -/

/-- What the calls made by one `Login` return: `getPass(a.PassCmd)`, the dial
(`client.DialTLS` or `client.Dial`, which hand back a nil client with an
error), `a.c.StartTLS`, `a.c.Login` and `a.c.Support("IDLE")`. -/
structure LoginWorld where
  getPass : Except GoError String
  dial : Except GoError Client
  startTLS : Option GoError
  login : Option GoError
  support : Bool × Option GoError
deriving Repr

/-- The connect block of `Account.Login`, run when `a.c == nil`. -/
def connect (w : LoginWorld) (a : Account) : Account × Option GoError :=
  if !a.StartTLS then
    match w.dial with
    | .error err => ({ a with c := none }, some err)
    | .ok cl => ({ a with c := some cl }, none)
  else
    match w.dial with
    | .error err => ({ a with c := none }, some err)
    | .ok cl =>
      match w.startTLS with
      | some err => ({ a with c := some cl }, some err)
      | none => ({ a with c := some cl }, none)

/-- The tail of `Account.Login` from `a.c.Login(a.User, a.password)` on, with
the session `a.c` in hand. -/
def authenticate (w : LoginWorld) (a : Account) : Account × Option GoError :=
  match w.login with
  | some err => (a, some err)
  | none =>
    match w.support with
    | (_, some err) => ({ a with idleOk := false }, some err)
    | (ok, none) => ({ a with idleOk := ok }, none)

/-- `Account.Login`: the account afterwards and the returned error. -/
def Login (w : LoginWorld) (a : Account) : Account × Option GoError :=
  let r0 : Account × Option GoError :=
    if a.password = "" then
      match w.getPass with
      | .error err => ({ a with password := "" }, some err)
      | .ok p => ({ a with password := p }, none)
    else (a, none)
  match r0 with
  | (a0, some err) => (a0, some err)
  | (a0, none) =>
    let r1 : Account × Option GoError :=
      if a0.c.isNone then connect w a0 else (a0, none)
    match r1 with
    | (a1, some err) => (a1, some err)
    | (a1, none) => authenticate w a1

/-- `Account.PollPause`: `true` when it returns after the pause, `false` when
it aborts with "Poll called when IDLE supported". -/
def PollPause (a : Account) : Bool :=
  if a.c.isNone then true
  else if a.idleOk then false
  else true

/-- `Account.Idle`: `none` when it aborts (`a.stopc` non-nil, or a nil session
dereferenced at `a.c.Updates`). -/
def Idle (a : Account) : Option Account :=
  if a.stopc then none
  else
    match a.c with
    | none => none
    | some cl =>
      some { a with stopc := true, donec := true, updatec := true,
                    c := some { cl with Updates := true }, t := true }

/-- `Account.StopIdle`: `none` when it aborts (closing a nil `a.stopc`, or a nil
session dereferenced at `a.c.Updates`). With `drain` the receive from
`a.donec` is taken to complete. -/
def StopIdle (_drain : Bool) (a : Account) : Option Account :=
  let a1 := if a.t then { a with t := false } else a
  if !a1.stopc then none
  else
    let a2 := { a1 with stopc := false }
    let a3 := if a2.donec then { a2 with donec := false } else a2
    if a3.updatec then
      match a3.c with
      | none => none
      | some cl => some { a3 with c := some { cl with Updates := false }, updatec := false }
    else some a3

/-- `Account.Logout`. -/
def Logout (a : Account) : Option Account :=
  match a.c with
  | none => some a
  | some _ =>
    let r := if a.stopc then StopIdle false a else some a
    match r with
    | none => none
    | some a1 => some { a1 with c := none }

/-! ## The `Online` loop (`account.go`) -/

/-- What one pass of the `Online` loop does, in order. -/
inductive Obs where
  | login (err : Option GoError)
  | pollPause
  | checkForNew
  | selectInbox (err : Option GoError)
  | logout
  | idle
  | stopIdle (drain : Bool)
  | send (e : Event)
  | blocked
  | abort
deriving DecidableEq, Repr

/-- The source the `select` of the `Online` loop wakes on: an update from
`a.updatec` (a mailbox update carrying `Messages`, or some other update), the
completion of the exchange from `a.donec`, or the refresh timer `a.t.C`. -/
inductive Wake where
  | update (messages : Option Nat)
  | done (err : Option GoError)
  | timer
deriving DecidableEq, Repr

/-- What the outside answers during one pass of the `Online` loop. -/
structure IterWorld where
  login : LoginWorld
  select : Except GoError Nat
  wake : Wake
deriving Repr

/-- The `select` statement of the `Online` loop and the case it runs. -/
def onlineSelect (wake : Wake) (a : Account) : Account × List Obs :=
  if !a.t then (a, [Obs.abort])
  else
    match wake with
    | .update mu =>
      if !a.updatec then (a, [Obs.blocked])
      else
        match mu with
        | some messages =>
          let newCount := wrapInt (wrapInt (Int.ofNat messages) - a.MsgCount)
          let a1 := { a with MsgCount := wrapInt (Int.ofNat messages) }
          if newCount ≠ 0 then (a1, (NewMail a1 newCount).map Obs.send)
          else (a1, [])
        | none => (a, [])
    | .done _ =>
      if !a.donec then (a, [Obs.blocked])
      else
        match Logout a with
        | none => (a, [Obs.logout, Obs.abort])
        | some a1 => (a1, [Obs.logout])
    | .timer =>
      let a1 := { a with t := false }
      match StopIdle true a1 with
      | none => (a1, [Obs.stopIdle true, Obs.abort])
      | some a2 => (a2, [Obs.stopIdle true])

/-- The part of the loop body after the optional `Login`. -/
def onlineBody (w : IterWorld) (a : Account) : Account × List Obs :=
  if a.c.isNone then
    if PollPause a then (a, [Obs.pollPause]) else (a, [Obs.pollPause, Obs.abort])
  else if !a.idleOk then
    if PollPause a then
      let r := CheckForNew w.select a
      (r.1, [Obs.pollPause, Obs.checkForNew] ++ r.2.map Obs.send)
    else (a, [Obs.pollPause, Obs.abort])
  else if !a.stopc then
    match selectInbox w.select a with
    | (a1, some err) =>
      match Logout a1 with
      | none => (a1, [Obs.selectInbox (some err), Obs.logout, Obs.abort])
      | some a2 =>
        if PollPause a2 then (a2, [Obs.selectInbox (some err), Obs.logout, Obs.pollPause])
        else (a2, [Obs.selectInbox (some err), Obs.logout, Obs.pollPause, Obs.abort])
    | (a1, none) =>
      match Idle a1 with
      | none => (a1, [Obs.selectInbox none, Obs.idle, Obs.abort])
      | some a2 =>
        let r := onlineSelect w.wake a2
        (r.1, [Obs.selectInbox none, Obs.idle] ++ r.2)
  else onlineSelect w.wake a

/-- One pass of the `for` loop of `Account.Online`: the account afterwards and
what the pass did. -/
def onlineIter (w : IterWorld) (a : Account) : Account × List Obs :=
  if a.c.isNone then
    let r := Login w.login a
    let b := onlineBody w r.1
    (b.1, Obs.login r.2 :: b.2)
  else onlineBody w a

/-! ## The update script (`imapidle.go`) -/

/-- The `exec.Cmd` that `runUpdateScript` builds and runs. -/
structure Cmd where
  Path : String
  Args : List String
deriving DecidableEq, Repr

/-- The argument slice of `runUpdateScript`: `make([]string, len(updateNames)+1)`
followed by one `append` per element of `updateNames`. -/
def updateArgs (updateNames : List String) : List String :=
  updateNames.foldl (fun args name => args ++ [name])
    (List.replicate (updateNames.length + 1) "")

/-- The command `runUpdateScript` runs, `none` when the script is not found.
Here `lookPath script` is what `exec.LookPath(expandTilde(script))` returns. -/
def runUpdateScript (lookPath : String → Except GoError String) (script : String)
    (updateNames : List String) : Option Cmd :=
  match lookPath script with
  | .error _ => none
  | .ok sPath => some { Path := sPath, Args := updateArgs updateNames }

/-! ## Account set-up in `main` (`imapidle.go`) -/

/-- The expression `a.Channels[0].Name`, evaluated only where `main` has
checked that the store has a channel. -/
def firstChannelName (channels : List Channel) : String :=
  match channels with
  | [] => ""
  | ch :: _ => ch.Name

/-- The loop `for i = range checkStores` of `main` from position `idx` on, for
the store named `k`: `i` is the loop variable declared before the loop, and
the result is its value after the loop together with the account, or `none`
for the account when the loop ends the process with `os.Exit(1)`. -/
def checkStoresLoop (k : String) : List String → Nat → Nat → Account → Nat × Option Account
  | [], _, i, a => (i, some a)
  | cs :: rest, idx, _, a =>
    let vals := stringsSplitColon cs
    let vlen := vals.length
    let sname := vals.headD ""
    if sname ≠ k then checkStoresLoop k rest (idx + 1) idx a
    else if vlen = 3 then
      (idx, some { a with UpdateName := stringsJoinColon (vals.drop 1) })
    else if vlen = 2 then
      (idx, some { a with UpdateName := vals.getD 1 "" ++ ":INBOX" })
    else if vlen = 1 then
      (idx, some { a with UpdateName := firstChannelName a.Channels ++ ":INBOX" })
    else (idx, none)

/-- What the body of `for k, v := range stores` does with one store. -/
inductive StoreResult where
  | skipped
  | exited
  | added (a : Account)
deriving DecidableEq, Repr

/-- The body of `for k, v := range stores` in `main`. -/
def mainStore (checkStores : List String) (interval : Nat) (k : String) (v : IMAPStore) :
    StoreResult :=
  if v.Channels.length = 0 then StoreResult.skipped
  else
    let a : Account :=
      { toAccountConfig := { v.Config with Name := k }
        Channels := v.Channels
        UpdateName := ""
        PollInt := interval
        MsgCount := 0
        c := none
        donec := false
        eventc := false
        stopc := false
        updatec := false
        t := false
        idleOk := false }
    if checkStores.length ≠ 0 then
      match checkStoresLoop k checkStores 0 0 a with
      | (_, none) => StoreResult.exited
      | (i, some a1) =>
        if i = checkStores.length then StoreResult.skipped
        else StoreResult.added a1
    else
      StoreResult.added { a with UpdateName := firstChannelName a.Channels ++ ":INBOX" }

/-- The map `accounts` that `main` builds from `stores`, as a list of the
entries added (`none` when the process exits on a bad restriction). The list
`stores` gives the map's entries in the order the range visits them. -/
def mainAccounts (checkStores : List String) (interval : Nat) :
    List (String × IMAPStore) → Option (List (String × Account))
  | [] => some []
  | (k, v) :: rest =>
    match mainStore checkStores interval k v with
    | StoreResult.exited => none
    | StoreResult.skipped => mainAccounts checkStores interval rest
    | StoreResult.added a =>
      (mainAccounts checkStores interval rest).map (fun m => (k, a) :: m)

/-- The accounts started by `for _, a := range accounts { go a.Online(eventc) }`. -/
def mainOnline (accounts : List (String × Account)) : List Account :=
  accounts.map Prod.snd

/-! ## The aggregator loop of `main` (`imapidle.go`) -/

/-- The variables of the aggregator loop: the keys of the map `update` (each
once), `fullUpdate`, and whether `dampT` is armed (reset and not yet fired). -/
structure MainState where
  update : List String
  fullUpdate : Bool
  dampT : Bool
deriving DecidableEq, Repr

/-- What a pass of the aggregator loop does to the outside. -/
inductive Effect where
  | resetDampT
  | runUpdateScript (channels : List String)
deriving DecidableEq, Repr

/-- The state before the loop: `update` empty, `fullUpdate` false, `dampT` stopped. -/
def mainInit : MainState :=
  { update := [], fullUpdate := false, dampT := false }

/-- The assignment `update[k] = true`. -/
def updateSet (update : List String) (k : String) : List String :=
  if k ∈ update then update else update ++ [k]

/-- The case `e := <-eventc` of the aggregator loop; `none` when `e.A.Name`
dereferences a nil account. -/
def mainEvent (s : MainState) (e : Event) : Option (MainState × List Effect) :=
  if e.E = NewMailEvent then
    match e.A with
    | none => none
    | some acct =>
      if !s.fullUpdate then
        if s.update.length = 0 then
          some ({ s with dampT := true, update := updateSet s.update acct.Name },
                [Effect.resetDampT])
        else
          some ({ s with update := updateSet s.update acct.Name }, [])
      else some (s, [])
  else if e.E = FullUpdateEvent then
    if !s.fullUpdate then
      if s.update.length ≠ 0 then
        some ({ s with update := [], fullUpdate := true }, [])
      else
        some ({ s with dampT := true, fullUpdate := true }, [Effect.resetDampT])
    else some ({ s with fullUpdate := true }, [])
  else some (s, [])

/-- The loop `for k := range update { channels = append(channels,
accounts[k].UpdateName) }` over the keys in the order given; `none` when a key
has no entry in `accounts` (a nil account is dereferenced). -/
def collectChannels (accounts : List (String × Account)) : List String → Option (List String)
  | [] => some []
  | k :: ks =>
    match accounts.lookup k with
    | none => none
    | some acct => (collectChannels accounts ks).map (fun chs => acct.UpdateName :: chs)

/-- The expression `accounts[k].UpdateName` for a key `k` of the map; for a
key without an entry, where the code dereferences nil, the empty string. -/
def updateNameOf (accounts : List (String × Account)) (k : String) : String :=
  match accounts.lookup k with
  | some acct => acct.UpdateName
  | none => ""

/-- The case `<-dampT.C` of the aggregator loop. The range over the map
`update` visits its keys in the order `order s.update`. -/
def mainTimer (accounts : List (String × Account)) (order : List String → List String)
    (s : MainState) : Option (MainState × List Effect) :=
  match collectChannels accounts (order s.update) with
  | none => none
  | some channels =>
    some ({ update := [], fullUpdate := false, dampT := false },
          [Effect.runUpdateScript channels])

/-- The aggregator loop run over a sequence of events, none of them a timer
fire: the state reached and everything done on the way. -/
def mainEvents : MainState → List Event → Option (MainState × List Effect)
  | s, [] => some (s, [])
  | s, e :: es =>
    match mainEvent s e with
    | none => none
    | some (s1, effs1) =>
      match mainEvents s1 es with
      | none => none
      | some (s2, effs2) => some (s2, effs1 ++ effs2)

/-- States the aggregator loop can be in: the initial one, and those reached by
handling an event or, with `dampT` armed, a timer fire. -/
inductive Reachable (accounts : List (String × Account)) : MainState → Prop where
  | init : Reachable accounts mainInit
  | event (s : MainState) (e : Event) (s1 : MainState) (effs : List Effect) :
      Reachable accounts s → mainEvent s e = some (s1, effs) → Reachable accounts s1
  | timer (s : MainState) (order : List String → List String) (s1 : MainState)
      (effs : List Effect) :
      Reachable accounts s → s.dampT = true → (∀ l, (order l).Perm l) →
      mainTimer accounts order s = some (s1, effs) → Reachable accounts s1

/-! ## The IDLE response handler (`account.go`) -/

/-- The library's `imap.Resp` values handed to `Handle`: a continuation
request, a data response, or a status response. -/
inductive Resp where
  | continuationReq (Info : String)
  | dataResp (Tag : String) (Fields : List String)
  | statusResp (Tag : String) (Info : String)
deriving DecidableEq, Repr

/-- The type assertion `resp.(*imap.ContinuationReq)` succeeds. -/
def Resp.isContinuationReq : Resp → Bool
  | Resp.continuationReq _ => true
  | _ => false

/-- The library's `responses.ErrUnhandled`. -/
def ErrUnhandled : GoError := "imap: unhandled response"

/-- The bytes of `[]byte("DONE\r\n")`. -/
def doneBytes : List Nat := [68, 79, 78, 69, 13, 10]

/-- The IDLE `Response`: the byte slices sent on `RepliesCh` so far, whether
`Stop` has been closed, the one-shot flag, and the number of goroutines
started by `Handle` that have not yet passed their receive `<-r.Stop`. -/
structure Response where
  RepliesCh : List (List Nat)
  Stop : Bool
  gotContinuationReq : Bool
  waiters : Nat
deriving DecidableEq, Repr

/-- `Response.stop`: sends `DONE\r\n` on `r.RepliesCh`. -/
def Response.stop (r : Response) : Response :=
  { r with RepliesCh := r.RepliesCh ++ [doneBytes] }

/-- `Response.Handle`: the response value afterwards and the returned error. -/
def Response.Handle (r : Response) (resp : Resp) : Response × Option GoError :=
  if resp.isContinuationReq && !r.gotContinuationReq then
    ({ r with gotContinuationReq := true, waiters := r.waiters + 1 }, none)
  else (r, some ErrUnhandled)

/-- `Handle` called on each response of a sequence in turn: the response value
afterwards and the errors returned, in order. -/
def handleAll : Response → List Resp → Response × List (Option GoError)
  | r, [] => (r, [])
  | r, resp :: rest =>
    let r1 := r.Handle resp
    let r2 := handleAll r1.1 rest
    (r2.1, r1.2 :: r2.2)

/-- What can happen to a `Response`: the session layer calls `Handle`, the
account closes `Stop`, or a goroutine started by `Handle` gets to run. -/
inductive RespStep where
  | handle (resp : Resp)
  | closeStop
  | waiter
deriving DecidableEq, Repr

/-- One step of a `Response`. A waiting goroutine passes `<-r.Stop` only once
`Stop` is closed, and then calls `r.stop()`. -/
def Response.step (r : Response) : RespStep → Response
  | RespStep.handle resp => (r.Handle resp).1
  | RespStep.closeStop => { r with Stop := true }
  | RespStep.waiter =>
    if r.Stop && decide (0 < r.waiters) then
      Response.stop { r with waiters := r.waiters - 1 }
    else r

/-- A `Response` taken through a sequence of steps. -/
def Response.steps : Response → List RespStep → Response
  | r, [] => r
  | r, s :: rest => Response.steps (r.step s) rest

/-- The `Response` that `Idle` creates: nothing sent, `Stop` open, flag unset. -/
def newResponse : Response :=
  { RepliesCh := [], Stop := false, gotContinuationReq := false, waiters := 0 }

/-- The bookkeeping of the stop-waiter: what has been sent plus who still waits
is one exactly when the flag is set, and only `DONE\r\n` is ever sent. -/
def Response.wellCounted (r : Response) : Prop :=
  r.RepliesCh.length + r.waiters = (if r.gotContinuationReq then 1 else 0) ∧
  ∀ b ∈ r.RepliesCh, b = doneBytes

/-- The accounts at the head of the `Online` loop: the account `Online` was
started on, and the account after every pass that did not abort. -/
inductive OnlineReach (a0 : Account) : Account → Prop where
  | start : OnlineReach a0 a0
  | pass (a : Account) (w : IterWorld) :
      OnlineReach a0 a → Obs.abort ∉ (onlineIter w a).2 → OnlineReach a0 (onlineIter w a).1

/-- The watch handles move together: the refresh timer, `donec` and `updatec`
are set exactly while `stopc` is, and `stopc` is set only over a live session. -/
def watchConsistent (a : Account) : Prop :=
  (a.stopc = true → a.c.isSome = true) ∧ a.t = a.stopc ∧ a.donec = a.stopc ∧
  a.updatec = a.stopc

/-! ## The configuration file (`parse.go`)

Strings are taken as valid UTF-8 text; where the code indexes or slices by
byte (`Far[1 : len(Far)-1]`) the bytes are those of the UTF-8 encoding. -/

/-- What a piece of `parseFile` ends in: a value, a returned error, the
process exit of `log.Fatalf`, or a run-time panic. -/
inductive Parsed (α : Type) where
  | ok (v : α)
  | error (err : GoError)
  | fatal
  | panicked
deriving DecidableEq, Repr

/-- The two library calls of `parse.go` whose results are taken as given: one
`Read` of a `csv.Reader` with `Comma = ' '` over a string, and `strconv.Atoi`. -/
structure ParseEnv where
  csvRead : String → Except GoError (List String)
  atoi : String → Except GoError Int

/-- Go `unicode.IsSpace`. -/
def unicodeIsSpace (c : Char) : Bool :=
  let n := c.toNat
  n == 0x09 || n == 0x0A || n == 0x0B || n == 0x0C || n == 0x0D || n == 0x20 ||
  n == 0x85 || n == 0xA0 || n == 0x1680 || (decide (0x2000 ≤ n) && decide (n ≤ 0x200A)) ||
  n == 0x2028 || n == 0x2029 || n == 0x202F || n == 0x205F || n == 0x3000

/-- Go `strings.TrimSpace`. -/
def stringsTrimSpace (s : String) : String :=
  String.mk ((s.data.dropWhile unicodeIsSpace).reverse.dropWhile unicodeIsSpace).reverse

/-- Go `strings.HasPrefix(s, p)`. -/
def stringsHasPrefix (s p : String) : Bool :=
  p.data.isPrefixOf s.data

/-- The bytes of a Go string. -/
def goBytes (s : String) : List UInt8 :=
  s.data.flatMap String.utf8EncodeChar

/-- The Go slice expression `b[lo:hi]` on a string with bytes `b`; `none` when
it panics with slice bounds out of range. -/
def goSlice (b : List UInt8) (lo hi : Int) : Option (List UInt8) :=
  if 0 ≤ lo ∧ lo ≤ hi ∧ hi ≤ (b.length : Int) then
    some ((b.drop lo.toNat).take (hi.toNat - lo.toNat))
  else none

/-- A byte string as `%v` prints it, one character per byte (exact for ASCII). -/
def showBytes (b : List UInt8) : String :=
  String.mk (b.map (fun x => Char.ofNat x.toNat))

/-- The assignment `m[k] = v` on a map kept as a list of entries. -/
def mapInsert {α : Type} (m : List (String × α)) (k : String) (v : α) : List (String × α) :=
  match m with
  | [] => [(k, v)]
  | (k1, v1) :: rest =>
    if k1 = k then (k, v) :: rest else (k1, v1) :: mapInsert rest k v

/-- Go `strconv.Atoi` for a 64-bit `int`: an optional sign followed by decimal
digits, within the range of `int`. The error text quotes `s` between double
quotes, which is what `strconv.Quote` gives when `s` has no character to
escape. -/
def strconvAtoi (s : String) : Except GoError Int :=
  let signed : Bool × List Char :=
    match s.data with
    | '+' :: rest => (false, rest)
    | '-' :: rest => (true, rest)
    | cs => (false, cs)
  if signed.2 = [] ∨ signed.2.all Char.isDigit = false then
    .error ("strconv.Atoi: parsing \"" ++ s ++ "\": invalid syntax")
  else
    let n : Nat := signed.2.foldl (fun acc c => acc * 10 + (c.toNat - 48)) 0
    let v : Int := if signed.1 then -(n : Int) else (n : Int)
    if v < -9223372036854775808 ∨ 9223372036854775807 < v then
      .error ("strconv.Atoi: parsing \"" ++ s ++ "\": value out of range")
    else .ok v

/-- `getValue`, for an ASCII `keyword`; `none` when the csv reader fails and
`log.Fatalf` ends the process. -/
def getValue (env : ParseEnv) (line keyword : String) : Option (Bool × String) :=
  let l := stringsTrimSpace line
  if !stringsHasPrefix l keyword then some (false, "")
  else
    match l.data.drop keyword.length with
    | [] => some (true, "")
    | c :: l2 =>
      if c ≠ '\t' ∧ c ≠ ' ' then some (false, "")
      else
        match env.csvRead (String.mk l2) with
        | .error _ => none
        | .ok record =>
          match record with
          | [field] => some (true, field)
          | _ => some (true, stringsTrimSpace (String.mk l2))

/-- `finishAccountConfig`: the config afterwards, or the returned error. -/
def finishAccountConfig (name : String) (config : AccountConfig) :
    Except GoError AccountConfig :=
  if config.Host = "" then .error ("Host required for " ++ name)
  else if config.User = "" then .error ("User required for " ++ name)
  else if config.password = "" ∧ config.PassCmd = "" then
    .error ("Password or PassCmd required for " ++ name)
  else if config.Port = 0 then
    if config.SSLVersion = "" then .ok { config with Port := 993, SSLVersion := "TLSv1.2" }
    else .ok { config with Port := 993 }
  else .ok config

/-- The variables of `parseFile`: the three maps, `chlist`, the section being
read (`a`, `st`, `ch`; `none` is nil) and `otherSection`. -/
structure ParseState where
  accounts : List (String × AccountConfig)
  stores : List (String × IMAPStore)
  channels : List (String × Channel)
  chlist : List Channel
  a : Option AccountConfig
  st : Option IMAPStore
  ch : Option Channel
  otherSection : Bool
deriving DecidableEq, Repr

/-- The closure `finishSection` applied to the current `a`, `st`, `ch`. -/
def finishSection (s : ParseState) : Except GoError ParseState :=
  match s.a with
  | some a =>
    match finishAccountConfig a.Name a with
    | .error err => .error err
    | .ok a1 => .ok { s with a := some a1, accounts := mapInsert s.accounts a1.Name a1 }
  | none =>
    match s.st with
    | some st =>
      if st.Account = "" then
        match finishAccountConfig st.Name st.Config with
        | .error err => .error err
        | .ok cfg =>
          .ok { s with st := some { st with Config := cfg },
                       stores := mapInsert s.stores st.Name { st with Config := cfg } }
      else .ok { s with stores := mapInsert s.stores st.Name st }
    | none =>
      match s.ch with
      | some ch =>
        if ch.Far = "" then .error ("No Far given for Channel " ++ ch.Name)
        else .ok { s with channels := mapInsert s.channels ch.Name ch,
                          chlist := s.chlist ++ [ch] }
      | none => .ok s

/-- The keyword chain of `parseFile` from `Host` to `User`, applied to the
config `a` points at. -/
def accountKeyword (env : ParseEnv) (a : AccountConfig) (l : String) : Parsed AccountConfig :=
  match getValue env l "Host" with
  | none => Parsed.fatal
  | some (true, v) => Parsed.ok { a with Host := v }
  | some (false, _) =>
  match getValue env l "PassCmd" with
  | none => Parsed.fatal
  | some (true, v) => Parsed.ok { a with PassCmd := v }
  | some (false, _) =>
  match getValue env l "Password" with
  | none => Parsed.fatal
  | some (true, v) => Parsed.ok { a with password := v }
  | some (false, _) =>
  match getValue env l "Port" with
  | none => Parsed.fatal
  | some (true, v) =>
    match env.atoi v with
    | .error err => Parsed.error err
    | .ok port => Parsed.ok { a with Port := port }
  | some (false, _) =>
  match getValue env l "SSLType" with
  | none => Parsed.fatal
  | some (true, v) =>
    if v = "STARTTLS" then
      let a1 := { a with StartTLS := true, Port := if a.Port = 0 then 143 else a.Port }
      Parsed.ok (if a1.SSLVersion = "" then { a1 with SSLVersion := "TLSv1.2" } else a1)
    else if v = "IMAPS" then
      let a1 := { a with Port := if a.Port = 0 then 993 else a.Port }
      Parsed.ok (if a1.SSLVersion = "" then { a1 with SSLVersion := "TLSv1.2" } else a1)
    else Parsed.error ("Unknown SSLType " ++ v)
  | some (false, _) =>
  match getValue env l "SSLVersion" with
  | none => Parsed.fatal
  | some (true, v) =>
    let a1 := { a with SSLVersion := v }
    if v ≠ "None" then Parsed.ok { a1 with Port := if a1.Port = 0 then 993 else a1.Port }
    else Parsed.ok a1
  | some (false, _) =>
  match getValue env l "User" with
  | none => Parsed.fatal
  | some (true, v) => Parsed.ok { a with User := v }
  | some (false, _) => Parsed.ok a

/-- The section starts of `parseFile`, tried on a line outside any section. -/
def sectionStart (env : ParseEnv) (s : ParseState) (l : String) : Parsed ParseState :=
  match getValue env l "IMAPAccount" with
  | none => Parsed.fatal
  | some (true, v) =>
    if (s.accounts.lookup v).isSome then Parsed.error ("Duplicate Account " ++ v)
    else
      Parsed.ok { s with a := some { Name := v, Host := "", Port := 0, StartTLS := false,
                                     SSLVersion := "", User := "", PassCmd := "",
                                     password := "" } }
  | some (false, _) =>
  match getValue env l "IMAPStore" with
  | none => Parsed.fatal
  | some (true, v) =>
    if (s.stores.lookup v).isSome then Parsed.error ("Duplicate IMAPStore " ++ v)
    else
      Parsed.ok { s with st := some { Name := v, Account := "",
                                      Config := { Name := "", Host := "", Port := 0,
                                                  StartTLS := false, SSLVersion := "",
                                                  User := "", PassCmd := "", password := "" },
                                      Channels := [] } }
  | some (false, _) =>
  match getValue env l "Channel" with
  | none => Parsed.fatal
  | some (true, v) =>
    if (s.channels.lookup v).isSome then Parsed.error ("Duplicate Channel " ++ v)
    else Parsed.ok { s with ch := some { Name := v, Far := "" } }
  | some (false, _) => Parsed.ok { s with otherSection := true }

/-- The body of the scanner loop of `parseFile` for one line. -/
def parseLine (env : ParseEnv) (s : ParseState) (line : String) : Parsed ParseState :=
  let l := stringsTrimSpace line
  if stringsHasPrefix l "#" then Parsed.ok s
  else if l = "" then
    match finishSection s with
    | .error err => Parsed.error err
    | .ok s1 => Parsed.ok { s1 with a := none, st := none, ch := none, otherSection := false }
  else if s.a.isNone && s.st.isNone && s.ch.isNone && !s.otherSection then
    sectionStart env s l
  else
    match s.ch with
    | some ch =>
      match getValue env l "Far" with
      | none => Parsed.fatal
      | some (true, v) =>
        if ch.Far ≠ "" then
          Parsed.error ("Multiple Far specified for channel " ++ ch.Name)
        else Parsed.ok { s with ch := some { ch with Far := v } }
      | some (false, _) => Parsed.ok s
    | none =>
      match s.st with
      | some st =>
        match accountKeyword env st.Config l with
        | Parsed.ok cfg =>
          match getValue env l "Account" with
          | none => Parsed.fatal
          | some (true, v) =>
            Parsed.ok { s with a := none, st := some { st with Config := cfg, Account := v } }
          | some (false, _) =>
            Parsed.ok { s with a := none, st := some { st with Config := cfg } }
        | Parsed.error err => Parsed.error err
        | Parsed.fatal => Parsed.fatal
        | Parsed.panicked => Parsed.panicked
      | none =>
        match s.a with
        | some a =>
          match accountKeyword env a l with
          | Parsed.ok a1 => Parsed.ok { s with a := some a1 }
          | Parsed.error err => Parsed.error err
          | Parsed.fatal => Parsed.fatal
          | Parsed.panicked => Parsed.panicked
        | none => Parsed.ok s

/-- The scanner loop of `parseFile` over the lines the scanner delivers. -/
def parseLines (env : ParseEnv) : ParseState → List String → Parsed ParseState
  | s, [] => Parsed.ok s
  | s, line :: rest =>
    match parseLine env s line with
    | Parsed.ok s1 => parseLines env s1 rest
    | Parsed.error err => Parsed.error err
    | Parsed.fatal => Parsed.fatal
    | Parsed.panicked => Parsed.panicked

/-- The loop of `parseFile` that copies a referenced account's config into each
store, in the order the range visits the stores. -/
def copyAccounts (accounts : List (String × AccountConfig)) :
    List (String × IMAPStore) → Except GoError (List (String × IMAPStore))
  | [] => .ok []
  | (k, v) :: rest =>
    if v.Account ≠ "" then
      match accounts.lookup v.Account with
      | none => .error ("Store " ++ k ++ " specifies non-existent account " ++ v.Account)
      | some a =>
        match copyAccounts accounts rest with
        | .error err => .error err
        | .ok rest1 => .ok ((k, { v with Config := a }) :: rest1)
    else
      match copyAccounts accounts rest with
      | .error err => .error err
      | .ok rest1 => .ok ((k, v) :: rest1)

/-- The loop of `parseFile` that builds the channel list of each store: for
each channel of `chlist`, `far := ch.Far[1 : len(ch.Far)-1]`, the store
`stores[far]`, and the append to its `Channels`. -/
def resolveChannels : List (String × IMAPStore) → List Channel →
    Parsed (List (String × IMAPStore))
  | stores, [] => Parsed.ok stores
  | stores, ch :: rest =>
    match goSlice (goBytes ch.Far) 1 (((goBytes ch.Far).length : Int) - 1) with
    | none => Parsed.panicked
    | some far =>
      match stores.find? (fun p => decide (goBytes p.1 = far)) with
      | none =>
        Parsed.error ("Channel specifies non-existent Far store " ++ showBytes far)
      | some (k, st) =>
        resolveChannels (mapInsert stores k { st with Channels := st.Channels ++ [ch] }) rest

/-- The state `parseFile` starts the scanner loop in. -/
def parseInit : ParseState :=
  { accounts := [], stores := [], channels := [], chlist := [],
    a := none, st := none, ch := none, otherSection := false }

/-- `parseFile` once the file is open: `lines` are the lines the scanner
delivers and `scanErr` is what `scanner.Err()` returns after them. -/
def parseFile (env : ParseEnv) (lines : List String) (scanErr : Option GoError) :
    Parsed (List (String × IMAPStore)) :=
  match parseLines env parseInit lines with
  | Parsed.error err => Parsed.error err
  | Parsed.fatal => Parsed.fatal
  | Parsed.panicked => Parsed.panicked
  | Parsed.ok s =>
    match scanErr with
    | some err => Parsed.error err
    | none =>
      match finishSection s with
      | .error err => Parsed.error err
      | .ok s1 =>
        match copyAccounts s1.accounts s1.stores with
        | .error err => Parsed.error err
        | .ok stores => resolveChannels stores s1.chlist

/-! ## Inputs used in the examples -/

/-- An account in the poll fallback with five messages on record. -/
def pollAccount : Account :=
  { Name := "work", Host := "imap.example.org", Port := 993, StartTLS := false,
    SSLVersion := "TLSv1.2", User := "me", PassCmd := "", password := "secret",
    Channels := [⟨"work", ":work:"⟩], UpdateName := "work:INBOX", PollInt := 300,
    MsgCount := 5, c := some ⟨1, false⟩, donec := false, eventc := true,
    stopc := false, updatec := false, t := false, idleOk := false }

/-- An idle account named `name` with update-target label `label`. -/
def acctNamed (name label : String) : Account :=
  { Name := name, Host := "imap.example.org", Port := 993, StartTLS := false,
    SSLVersion := "TLSv1.2", User := "me", PassCmd := "", password := "secret",
    Channels := [⟨name, ":" ++ name ++ ":"⟩], UpdateName := label, PollInt := 300,
    MsgCount := 0, c := none, donec := false, eventc := false,
    stopc := false, updatec := false, t := false, idleOk := false }

/-- An `accounts` map with three entries. -/
def threeAccounts : List (String × Account) :=
  [("A", acctNamed "A" "a:INBOX"), ("B", acctNamed "B" "b:INBOX"),
   ("C", acctNamed "C" "c:INBOX")]

/-- A `NewMailEvent` from the account named `name`. -/
def newMailFrom (name label : String) : Event :=
  ⟨NewMailEvent, some (acctNamed name label)⟩

/-- A store named `name` with one channel `chan`. -/
def storeNamed (name chan : String) : IMAPStore :=
  { Name := name, Account := "",
    Config := { Name := name, Host := "imap.example.org", Port := 993, StartTLS := false,
                SSLVersion := "TLSv1.2", User := "me", PassCmd := "", password := "secret" },
    Channels := [⟨chan, ":" ++ name ++ ":"⟩] }

/-- Two stores, each with a channel of its own. -/
def twoStores : List (String × IMAPStore) :=
  [("s1", storeNamed "s1" "c1"), ("s2", storeNamed "s2" "c2")]

/-- The dial succeeds and the server refuses the credentials at `a.c.Login`. -/
def authRefused : LoginWorld :=
  { getPass := .ok "secret", dial := .ok ⟨1, false⟩, startTLS := none,
    login := some "authentication failed", support := (false, none) }

/-- The dial succeeds and the TLS upgrade `a.c.StartTLS` fails. -/
def tlsRefused : LoginWorld :=
  { getPass := .ok "secret", dial := .ok ⟨1, false⟩, startTLS := some "tls: handshake failure",
    login := none, support := (true, none) }

/-- The session is authenticated and the capability query `a.c.Support` fails. -/
def supportFailed : LoginWorld :=
  { getPass := .ok "secret", dial := .ok ⟨1, false⟩, startTLS := none,
    login := none, support := (false, some "connection closed") }

/-- The dial fails. -/
def dialFailed : LoginWorld :=
  { getPass := .ok "secret", dial := .error "connection refused", startTLS := none,
    login := none, support := (true, none) }

/-- The password command fails. -/
def passFailed : LoginWorld :=
  { getPass := .error "exit status 1", dial := .ok ⟨1, false⟩, startTLS := none,
    login := none, support := (true, none) }

/-- A pass of the `Online` loop in which the credentials are refused and a
selection on the session fails. -/
def authRefusedPass : IterWorld :=
  { login := authRefused, select := .error "not authenticated", wake := Wake.timer }

/-- A pass of the `Online` loop in which the login succeeds on a server that
supports IDLE, the INBOX holds three messages, and a mailbox update reporting
five messages arrives. -/
def watchPass : IterWorld :=
  { login := { getPass := .ok "secret", dial := .ok ⟨1, false⟩, startTLS := none,
               login := none, support := (true, none) },
    select := .ok 3, wake := Wake.update (some 5) }

/-- Library results for lines that hold one word without quotes: the csv
reader returns the text after the keyword as its single field, and the number
conversion is `strconvAtoi`. -/
def plainEnv : ParseEnv :=
  { csvRead := fun l => .ok [l], atoi := strconvAtoi }

/-- An `accounts` map in which the first two accounts share a label. -/
def sharedAccounts : List (String × Account) :=
  [("s1", acctNamed "s1" "x:INBOX"), ("s2", acctNamed "s2" "x:INBOX"),
   ("s3", acctNamed "s3" "y:INBOX")]

/-- The aggregator state with all three accounts of `sharedAccounts` pending. -/
def threePending : MainState :=
  { update := ["s1", "s2", "s3"], fullUpdate := false, dampT := true }

/-! # Properties -/

/-! ## Arithmetic of `int` -/

theorem wrapInt_eq_self (x : Int) (hlo : -9223372036854775808 ≤ x)
    (hhi : x < 9223372036854775808) : wrapInt x = x := by
  unfold wrapInt
  omega

theorem wrapInt_natCast (n : Nat) (hn : n < 4294967296) : wrapInt (n : Int) = (n : Int) := by
  apply wrapInt_eq_self <;> omega

/-! ## Selection and the poll check -/

theorem checkForNew_exact (a : Account) (n : Nat) (hn : n < 4294967296)
    (h0 : a.MsgCount ≠ 0) (hlo : 0 ≤ a.MsgCount) (hhi : a.MsgCount < 4294967296) :
    (checkForNew (.ok n) a).2.1 = (n : Int) - a.MsgCount := by
  have hw := wrapInt_natCast n hn
  simp only [checkForNew, selectInbox, Int.ofNat_eq_coe, hw, ne_eq, h0, not_false_eq_true,
    if_true]
  apply wrapInt_eq_self <;> omega

/-- C1: after a successful INBOX selection reporting `n` messages, `checkForNew`
returns no error, the stored `MsgCount` is `n`, and the returned delta is 0
when the stored count was 0 and the Go difference `n - old` otherwise, which is
the exact difference for every stored count that came from a `uint32`. -/
theorem checkForNew_delta (a : Account) (n : Nat) (hn : n < 4294967296) :
    (checkForNew (.ok n) a).2.2 = none ∧
    (checkForNew (.ok n) a).1.MsgCount = (n : Int) ∧
    (selectInbox (.ok n) a).1.MsgCount = (n : Int) ∧
    (a.MsgCount = 0 → (checkForNew (.ok n) a).2.1 = 0) ∧
    (a.MsgCount ≠ 0 → (checkForNew (.ok n) a).2.1 = wrapInt ((n : Int) - a.MsgCount)) ∧
    (a.MsgCount ≠ 0 → 0 ≤ a.MsgCount → a.MsgCount < 4294967296 →
      (checkForNew (.ok n) a).2.1 = (n : Int) - a.MsgCount) := by
  have hw := wrapInt_natCast n hn
  refine ⟨rfl, ?_, ?_, ?_, ?_, checkForNew_exact a n hn⟩
  · simp [checkForNew, selectInbox, hw]
  · simp [selectInbox, hw]
  · intro h0
    simp [checkForNew, selectInbox, h0]
  · intro h0
    simp [checkForNew, selectInbox, h0, hw]

theorem checkForNew_delta_witness :
    (checkForNew (.ok 7) pollAccount).2.2 = none ∧
    (checkForNew (.ok 7) pollAccount).1.MsgCount = ((7 : Nat) : Int) ∧
    (selectInbox (.ok 7) pollAccount).1.MsgCount = ((7 : Nat) : Int) ∧
    (pollAccount.MsgCount = 0 → (checkForNew (.ok 7) pollAccount).2.1 = 0) ∧
    (pollAccount.MsgCount ≠ 0 →
      (checkForNew (.ok 7) pollAccount).2.1 = wrapInt (((7 : Nat) : Int) - pollAccount.MsgCount)) ∧
    (pollAccount.MsgCount ≠ 0 → 0 ≤ pollAccount.MsgCount → pollAccount.MsgCount < 4294967296 →
      (checkForNew (.ok 7) pollAccount).2.1 = ((7 : Nat) : Int) - pollAccount.MsgCount) :=
  checkForNew_delta pollAccount 7 (by decide)

theorem CheckForNew_ok (a : Account) (n : Nat) :
    CheckForNew (.ok n) a =
      if (checkForNew (.ok n) a).2.1 ≠ 0 then
        ((checkForNew (.ok n) a).1,
          NewMail (checkForNew (.ok n) a).1 (checkForNew (.ok n) a).2.1)
      else ((checkForNew (.ok n) a).1, []) := rfl

/-- C2, as stated, fails: with five messages on record and the server
reporting three, the delta is -2, not greater than 0, and `CheckForNew` still
sends a `NewMailEvent`. -/
theorem CheckForNew_sends_on_drop :
    (checkForNew (.ok 3) pollAccount).2.1 = -2 ∧
    (CheckForNew (.ok 3) pollAccount).2 =
      [⟨NewMailEvent, some { pollAccount with MsgCount := 3 }⟩] ∧
    ¬ ((CheckForNew (.ok 3) pollAccount).2 ≠ [] ↔ 0 < (checkForNew (.ok 3) pollAccount).2.1) := by
  decide

/-- C2, amended: after a successful selection `CheckForNew` sends an event
exactly when the delta of `checkForNew` is not 0, the event is then a single
`NewMailEvent` for the account, and so a server count below a stored non-zero
count (a negative delta) does send a `NewMailEvent`. -/
theorem CheckForNew_sends_iff (a : Account) (n : Nat) (hn : n < 4294967296)
    (hlo : 0 ≤ a.MsgCount) (hhi : a.MsgCount < 4294967296) :
    ((CheckForNew (.ok n) a).2 ≠ [] ↔ (checkForNew (.ok n) a).2.1 ≠ 0) ∧
    ((checkForNew (.ok n) a).2.1 ≠ 0 →
      (CheckForNew (.ok n) a).2 = [⟨NewMailEvent, some (checkForNew (.ok n) a).1⟩]) ∧
    (a.MsgCount ≠ 0 → (n : Int) < a.MsgCount →
      (checkForNew (.ok n) a).2.1 < 0 ∧
      (CheckForNew (.ok n) a).2 = [⟨NewMailEvent, some (checkForNew (.ok n) a).1⟩]) := by
  have hsend : (checkForNew (.ok n) a).2.1 ≠ 0 →
      (CheckForNew (.ok n) a).2 = [⟨NewMailEvent, some (checkForNew (.ok n) a).1⟩] := by
    intro hd
    rw [CheckForNew_ok, if_pos hd]
    simp [NewMail, hd]
  refine ⟨⟨?_, ?_⟩, hsend, ?_⟩
  · intro hne hz
    apply hne
    rw [CheckForNew_ok]
    simp [hz]
  · intro hd
    rw [hsend hd]
    simp
  · intro h0 hlt
    have hd := checkForNew_exact a n hn h0 hlo hhi
    have hneg : (checkForNew (.ok n) a).2.1 < 0 := by rw [hd]; omega
    exact ⟨hneg, hsend (by omega)⟩

theorem CheckForNew_sends_iff_witness :
    ((CheckForNew (.ok 3) pollAccount).2 ≠ [] ↔ (checkForNew (.ok 3) pollAccount).2.1 ≠ 0) ∧
    ((checkForNew (.ok 3) pollAccount).2.1 ≠ 0 →
      (CheckForNew (.ok 3) pollAccount).2 =
        [⟨NewMailEvent, some (checkForNew (.ok 3) pollAccount).1⟩]) ∧
    (pollAccount.MsgCount ≠ 0 → ((3 : Nat) : Int) < pollAccount.MsgCount →
      (checkForNew (.ok 3) pollAccount).2.1 < 0 ∧
      (CheckForNew (.ok 3) pollAccount).2 =
        [⟨NewMailEvent, some (checkForNew (.ok 3) pollAccount).1⟩]) :=
  CheckForNew_sends_iff pollAccount 3 (by decide) (by decide) (by decide)

/-! ## The aggregator loop -/

theorem mem_updateSet (update : List String) (k x : String) :
    x ∈ updateSet update k ↔ x ∈ update ∨ x = k := by
  unfold updateSet
  by_cases h : k ∈ update
  · simp only [h, if_true]
    constructor
    · intro hx; exact Or.inl hx
    · rintro (hx | hx)
      · exact hx
      · rw [hx]; exact h
  · simp [h]

theorem updateSet_ne_nil (update : List String) (k : String) : updateSet update k ≠ [] := by
  unfold updateSet
  by_cases h : k ∈ update
  · simp only [h, if_true]
    intro hnil
    rw [hnil] at h
    simp at h
  · simp [h]

theorem updateSet_nodup (update : List String) (k : String) (h : update.Nodup) :
    (updateSet update k).Nodup := by
  unfold updateSet
  by_cases hk : k ∈ update
  · simp [hk, h]
  · simp only [hk, if_false]
    rw [List.nodup_append]
    refine ⟨h, List.nodup_singleton k, ?_⟩
    intro x hx hx1
    simp only [List.mem_singleton] at hx1
    rw [hx1] at hx
    exact hk hx

theorem mainEvent_newMail (s : MainState) (hs : s.fullUpdate = false) (e : Event)
    (acct : Account) (hE : e.E = NewMailEvent) (hA : e.A = some acct) :
    mainEvent s e =
      some ({ update := updateSet s.update acct.Name, fullUpdate := false,
              dampT := if s.update = [] then true else s.dampT },
            if s.update = [] then [Effect.resetDampT] else []) := by
  cases s with
  | mk update fullUpdate dampT =>
    simp only at hs
    subst hs
    cases update with
    | nil => simp [mainEvent, hE, hA]
    | cons k ks => simp [mainEvent, hE, hA]

theorem mainEvents_newMail (evs : List Event) :
    ∀ s : MainState, s.fullUpdate = false →
    (∀ e ∈ evs, e.E = NewMailEvent ∧ ∃ acct, e.A = some acct) →
    ∃ s1, mainEvents s evs =
        some (s1, if s.update = [] ∧ evs ≠ [] then [Effect.resetDampT] else []) ∧
      s1.fullUpdate = false ∧
      s1.dampT = (if s.update = [] ∧ evs ≠ [] then true else s.dampT) ∧
      (s.update.Nodup → s1.update.Nodup) ∧
      (∀ k, k ∈ s1.update ↔
        k ∈ s.update ∨ ∃ e ∈ evs, ∃ acct, e.A = some acct ∧ acct.Name = k) := by
  induction evs with
  | nil =>
    intro s hs _
    exact ⟨s, by simp [mainEvents], hs, by simp, fun h => h, by simp⟩
  | cons e es ih =>
    intro s hs hall
    obtain ⟨hE, acct, hA⟩ := hall e (List.mem_cons_self e es)
    have hstep := mainEvent_newMail s hs e acct hE hA
    have hall1 : ∀ e1 ∈ es, e1.E = NewMailEvent ∧ ∃ acct, e1.A = some acct :=
      fun e1 h1 => hall e1 (List.mem_cons_of_mem e h1)
    obtain ⟨s1, hrun, hf, hd, hnd, hmem⟩ :=
      ih { update := updateSet s.update acct.Name, fullUpdate := false,
           dampT := if s.update = [] then true else s.dampT } rfl hall1
    have hne := updateSet_ne_nil s.update acct.Name
    simp only [hne, false_and, if_false] at hrun hd
    refine ⟨s1, ?_, hf, ?_, ?_, ?_⟩
    · simp only [mainEvents, hstep, hrun]
      by_cases hnil : s.update = [] <;> simp [hnil]
    · rw [hd]
      by_cases hnil : s.update = [] <;> simp [hnil]
    · intro h
      exact hnd (updateSet_nodup s.update acct.Name h)
    · intro k
      rw [hmem k]
      simp only [mem_updateSet, List.mem_cons, exists_eq_or_imp, hA, Option.some.injEq,
        exists_eq_left']
      constructor
      · rintro ((h | h) | h)
        · exact Or.inl h
        · exact Or.inr (Or.inl h.symm)
        · exact Or.inr (Or.inr h)
      · rintro (h | h | h)
        · exact Or.inl (Or.inl h)
        · exact Or.inl (Or.inr h.symm)
        · exact Or.inr h

theorem collectChannels_eq (accounts : List (String × Account)) (ks : List String)
    (hall : ∀ k ∈ ks, ∃ acct, accounts.lookup k = some acct) :
    ∃ channels, collectChannels accounts ks = some channels ∧
      channels.length = ks.length ∧
      (∀ x, x ∈ channels ↔
        ∃ k ∈ ks, ∃ acct, accounts.lookup k = some acct ∧ acct.UpdateName = x) := by
  induction ks with
  | nil => exact ⟨[], rfl, rfl, by simp⟩
  | cons k ks ih =>
    obtain ⟨acct, hk⟩ := hall k (List.mem_cons_self k ks)
    obtain ⟨chs, hc, hlen, hmem⟩ := ih (fun k1 h1 => hall k1 (List.mem_cons_of_mem k h1))
    refine ⟨acct.UpdateName :: chs, by simp [collectChannels, hk, hc], by simp [hlen], ?_⟩
    intro x
    simp only [List.mem_cons, hmem, exists_eq_or_imp, hk, Option.some.injEq, exists_eq_left']
    constructor
    · rintro (h | h)
      · exact Or.inl h.symm
      · exact Or.inr h
    · rintro (h | h)
      · exact Or.inl h.symm
      · exact Or.inr h

/-- C3: from the initial aggregator state, any sequence of `NewMailEvent`s that
names exactly the accounts A, B and C resets the debounce timer once and runs
nothing; the timer fire then calls `runUpdateScript` once, with a target list
whose elements are exactly the three accounts' `UpdateName`s, and leaves the
initial state again (pending set empty, flag unset, timer not armed). -/
theorem mainTimer_three_accounts (accounts : List (String × Account))
    (order : List String → List String) (horder : ∀ l, (order l).Perm l)
    (A B C : Account)
    (hA : accounts.lookup A.Name = some A) (hB : accounts.lookup B.Name = some B)
    (hC : accounts.lookup C.Name = some C)
    (evs : List Event)
    (hall : ∀ e ∈ evs, e.E = NewMailEvent ∧
      ∃ acct, e.A = some acct ∧
        (acct.Name = A.Name ∨ acct.Name = B.Name ∨ acct.Name = C.Name))
    (hmA : ∃ e ∈ evs, ∃ acct, e.A = some acct ∧ acct.Name = A.Name)
    (hmB : ∃ e ∈ evs, ∃ acct, e.A = some acct ∧ acct.Name = B.Name)
    (hmC : ∃ e ∈ evs, ∃ acct, e.A = some acct ∧ acct.Name = C.Name) :
    ∃ s channels,
      mainEvents mainInit evs = some (s, [Effect.resetDampT]) ∧
      s.dampT = true ∧
      mainTimer accounts order s = some (mainInit, [Effect.runUpdateScript channels]) ∧
      (∀ x, x ∈ channels ↔ x = A.UpdateName ∨ x = B.UpdateName ∨ x = C.UpdateName) ∧
      mainInit.update = [] ∧ mainInit.fullUpdate = false ∧ mainInit.dampT = false := by
  have hne : evs ≠ [] := by
    obtain ⟨e, he, _⟩ := hmA
    intro hnil
    rw [hnil] at he
    simp at he
  obtain ⟨s, hrun, _, hd, _, hmem⟩ := mainEvents_newMail evs mainInit rfl
    (fun e he => ⟨(hall e he).1, (hall e he).2.choose, (hall e he).2.choose_spec.1⟩)
  have hinit : mainInit.update = [] := rfl
  simp only [hinit, hne, ne_eq, not_false_eq_true, and_self, if_true] at hrun hd
  have hkeys : ∀ k, k ∈ s.update ↔ k = A.Name ∨ k = B.Name ∨ k = C.Name := by
    intro k
    rw [hmem k]
    simp only [hinit, List.not_mem_nil, false_or]
    constructor
    · rintro ⟨e, he, acct, hacct, hk⟩
      obtain ⟨_, acct1, hacct1, hor⟩ := hall e he
      rw [hacct] at hacct1
      cases hacct1
      rw [← hk]
      exact hor
    · rintro (hk | hk | hk)
      · rw [hk]; exact hmA
      · rw [hk]; exact hmB
      · rw [hk]; exact hmC
  have hfound : ∀ k ∈ order s.update, ∃ acct, accounts.lookup k = some acct := by
    intro k hk
    rcases (hkeys k).1 ((horder s.update).mem_iff.1 hk) with h | h | h
    · exact ⟨A, by rw [h]; exact hA⟩
    · exact ⟨B, by rw [h]; exact hB⟩
    · exact ⟨C, by rw [h]; exact hC⟩
  obtain ⟨channels, hch, _, hchmem⟩ := collectChannels_eq accounts (order s.update) hfound
  refine ⟨s, channels, hrun, hd, ?_, ?_, rfl, rfl, rfl⟩
  · simp [mainTimer, hch, mainInit]
  · intro x
    rw [hchmem x]
    constructor
    · rintro ⟨k, hk, acct, hacct, hx⟩
      rcases (hkeys k).1 ((horder s.update).mem_iff.1 hk) with h | h | h
      · rw [h, hA] at hacct; cases hacct; exact Or.inl hx.symm
      · rw [h, hB] at hacct; cases hacct; exact Or.inr (Or.inl hx.symm)
      · rw [h, hC] at hacct; cases hacct; exact Or.inr (Or.inr hx.symm)
    · rintro (hx | hx | hx)
      · exact ⟨A.Name, (horder s.update).mem_iff.2 ((hkeys _).2 (Or.inl rfl)), A, hA, hx.symm⟩
      · exact ⟨B.Name, (horder s.update).mem_iff.2 ((hkeys _).2 (Or.inr (Or.inl rfl))), B, hB,
          hx.symm⟩
      · exact ⟨C.Name, (horder s.update).mem_iff.2 ((hkeys _).2 (Or.inr (Or.inr rfl))), C, hC,
          hx.symm⟩

theorem mainTimer_three_accounts_witness :
    ∃ s channels,
      mainEvents mainInit
          [newMailFrom "B" "b:INBOX", newMailFrom "A" "a:INBOX", newMailFrom "C" "c:INBOX",
           newMailFrom "B" "b:INBOX"] = some (s, [Effect.resetDampT]) ∧
      s.dampT = true ∧
      mainTimer threeAccounts List.reverse s =
        some (mainInit, [Effect.runUpdateScript channels]) ∧
      (∀ x, x ∈ channels ↔ x = (acctNamed "A" "a:INBOX").UpdateName ∨
        x = (acctNamed "B" "b:INBOX").UpdateName ∨ x = (acctNamed "C" "c:INBOX").UpdateName) ∧
      mainInit.update = [] ∧ mainInit.fullUpdate = false ∧ mainInit.dampT = false :=
  mainTimer_three_accounts threeAccounts List.reverse (fun l => List.reverse_perm l)
    (acctNamed "A" "a:INBOX") (acctNamed "B" "b:INBOX") (acctNamed "C" "c:INBOX")
    (by decide) (by decide) (by decide)
    [newMailFrom "B" "b:INBOX", newMailFrom "A" "a:INBOX", newMailFrom "C" "c:INBOX",
     newMailFrom "B" "b:INBOX"]
    (by
      intro e he
      simp only [List.mem_cons, List.mem_singleton, List.not_mem_nil, or_false] at he
      rcases he with h | h | h | h
      · exact ⟨by rw [h]; rfl, _, by rw [h]; rfl, Or.inr (Or.inl rfl)⟩
      · exact ⟨by rw [h]; rfl, _, by rw [h]; rfl, Or.inl rfl⟩
      · exact ⟨by rw [h]; rfl, _, by rw [h]; rfl, Or.inr (Or.inr rfl)⟩
      · exact ⟨by rw [h]; rfl, _, by rw [h]; rfl, Or.inr (Or.inl rfl)⟩)
    ⟨newMailFrom "A" "a:INBOX", by simp, _, rfl, rfl⟩
    ⟨newMailFrom "B" "b:INBOX", by simp, _, rfl, rfl⟩
    ⟨newMailFrom "C" "c:INBOX", by simp, _, rfl, rfl⟩

theorem mainEvent_cases (s : MainState) (e : Event) (s1 : MainState) (effs : List Effect)
    (h : mainEvent s e = some (s1, effs)) :
    (s1 = s ∧ effs = []) ∨
    (∃ acct : Account, s.fullUpdate = false ∧ s.update = [] ∧
      s1 = { update := updateSet s.update acct.Name, fullUpdate := false, dampT := true } ∧
      effs = [Effect.resetDampT]) ∨
    (∃ acct : Account, s.fullUpdate = false ∧ s.update ≠ [] ∧
      s1 = { update := updateSet s.update acct.Name, fullUpdate := false, dampT := s.dampT } ∧
      effs = []) ∨
    (s.fullUpdate = false ∧ s.update ≠ [] ∧
      s1 = { update := [], fullUpdate := true, dampT := s.dampT } ∧ effs = []) ∨
    (s.fullUpdate = false ∧ s.update = [] ∧
      s1 = { update := [], fullUpdate := true, dampT := true } ∧
      effs = [Effect.resetDampT]) := by
  obtain ⟨update, fullUpdate, dampT⟩ := s
  unfold mainEvent at h
  by_cases hN : e.E = NewMailEvent
  · simp only [hN, if_true] at h
    cases hA : e.A with
    | none => simp [hA] at h
    | some acct =>
      simp only [hA] at h
      cases fullUpdate with
      | true =>
        simp at h
        exact Or.inl ⟨h.1.symm, h.2⟩
      | false =>
        cases update with
        | nil =>
          simp at h
          exact Or.inr (Or.inl ⟨acct, rfl, rfl, h.1.symm, h.2.symm⟩)
        | cons k ks =>
          simp at h
          exact Or.inr (Or.inr (Or.inl ⟨acct, rfl, by simp, h.1.symm, h.2⟩))
  · simp only [hN, if_false] at h
    by_cases hF : e.E = FullUpdateEvent
    · simp only [hF, if_true] at h
      cases fullUpdate with
      | true =>
        simp at h
        exact Or.inl ⟨h.1.symm, h.2⟩
      | false =>
        cases update with
        | nil =>
          simp at h
          exact Or.inr (Or.inr (Or.inr (Or.inr ⟨rfl, rfl, h.1.symm, h.2.symm⟩)))
        | cons k ks =>
          simp at h
          exact Or.inr (Or.inr (Or.inr (Or.inl ⟨rfl, by simp, h.1.symm, h.2⟩)))
    · simp only [hF, if_false] at h
      simp at h
      exact Or.inl ⟨h.1.symm, h.2⟩

theorem mainEvent_flag_set (s : MainState) (e : Event) (s1 : MainState) (effs : List Effect)
    (hs : s.fullUpdate = true) (h : mainEvent s e = some (s1, effs)) :
    s1 = s ∧ effs = [] := by
  rcases mainEvent_cases s e s1 effs h with h1 | ⟨_, h1, _⟩ | ⟨_, h1, _⟩ | ⟨h1, _⟩ | ⟨h1, _⟩
  · exact h1
  all_goals (rw [hs] at h1; cases h1)

theorem mainEvents_flag_set (evs : List Event) (s s1 : MainState) (effs : List Effect)
    (hs : s.fullUpdate = true) (h : mainEvents s evs = some (s1, effs)) :
    s1 = s ∧ effs = [] := by
  induction evs generalizing s1 effs with
  | nil =>
    simp only [mainEvents, Option.some.injEq, Prod.mk.injEq] at h
    exact ⟨h.1.symm, h.2.symm⟩
  | cons e es ih =>
    simp only [mainEvents] at h
    cases h1 : mainEvent s e with
    | none => simp [h1] at h
    | some r =>
      obtain ⟨s2, effs2⟩ := r
      obtain ⟨hs2, he2⟩ := mainEvent_flag_set s e s2 effs2 hs h1
      subst hs2
      subst he2
      simp only [h1] at h
      cases h3 : mainEvents s2 es with
      | none => simp [h3] at h
      | some r3 =>
        obtain ⟨s3, effs3⟩ := r3
        obtain ⟨hs3, he3⟩ := ih s3 effs3 h3
        simp only [h3, List.nil_append, Option.some.injEq, Prod.mk.injEq] at h
        exact ⟨by rw [← h.1, hs3], by rw [← h.2, he3]⟩

theorem mainTimer_state (accounts : List (String × Account))
    (order : List String → List String) (s s1 : MainState) (effs : List Effect)
    (h : mainTimer accounts order s = some (s1, effs)) :
    s1 = mainInit ∧ ∃ channels, effs = [Effect.runUpdateScript channels] := by
  unfold mainTimer at h
  cases hc : collectChannels accounts (order s.update) with
  | none => simp [hc] at h
  | some channels =>
    simp only [hc, Option.some.injEq, Prod.mk.injEq] at h
    exact ⟨h.1.symm, channels, h.2.symm⟩

/-- The flag supersedes the set: with `fullUpdate` set, `update` is empty. -/
theorem reachable_flag_empty (accounts : List (String × Account)) (s : MainState)
    (hr : Reachable accounts s) : s.fullUpdate = true → s.update = [] := by
  induction hr with
  | init => intro h; cases h
  | event s e s1 effs _ hstep ih =>
    intro hf
    rcases mainEvent_cases s e s1 effs hstep with
      h1 | ⟨_, _, _, h1, _⟩ | ⟨_, _, _, h1, _⟩ | ⟨_, _, h1, _⟩ | ⟨_, _, h1, _⟩
    · rw [h1.1] at hf ⊢; exact ih hf
    · rw [h1] at hf; cases hf
    · rw [h1] at hf; cases hf
    · rw [h1]
    · rw [h1]
  | timer s order s1 effs _ _ _ hstep _ =>
    intro _
    rw [(mainTimer_state accounts order s s1 effs hstep).1]
    rfl

/-- The timer is armed exactly while something is pending. -/
theorem reachable_armed_iff (accounts : List (String × Account)) (s : MainState)
    (hr : Reachable accounts s) :
    s.dampT = true ↔ (s.update ≠ [] ∨ s.fullUpdate = true) := by
  induction hr with
  | init => simp [mainInit]
  | event s e s1 effs _ hstep ih =>
    rcases mainEvent_cases s e s1 effs hstep with
      h1 | ⟨acct, _, _, h1, _⟩ | ⟨acct, h0, hne, h1, _⟩ | ⟨_, hne, h1, _⟩ | ⟨_, _, h1, _⟩
    · rw [h1.1]; exact ih
    · rw [h1]
      simp [updateSet_ne_nil]
    · rw [h1]
      have : s.dampT = true := ih.2 (Or.inl hne)
      simp [updateSet_ne_nil, this]
    · rw [h1]
      have : s.dampT = true := ih.2 (Or.inl hne)
      simp [this]
    · rw [h1]
      simp
  | timer s order s1 effs _ _ _ hstep _ =>
    rw [(mainTimer_state accounts order s s1 effs hstep).1]
    simp [mainInit]

theorem reachable_after_newMail :
    Reachable threeAccounts { update := ["A"], fullUpdate := false, dampT := true } :=
  Reachable.event mainInit (newMailFrom "A" "a:INBOX") _ [Effect.resetDampT]
    Reachable.init (by decide)

theorem reachable_after_fullUpdate :
    Reachable threeAccounts { update := [], fullUpdate := true, dampT := true } :=
  Reachable.event { update := ["A"], fullUpdate := false, dampT := true }
    ⟨FullUpdateEvent, none⟩ _ [] reachable_after_newMail (by decide)

/-- C4: a `FullUpdateEvent` handled with the pending set non-empty and the flag
unset empties the set and sets the flag; in every reachable state a set flag
means an empty pending set; an event handled while the flag is set changes
nothing; so the timer fire that follows calls `runUpdateScript` with the empty
target list, free of the earlier partial set's labels. -/
theorem fullUpdate_supersedes (accounts : List (String × Account)) :
    (∀ (s : MainState) (e : Event), e.E = FullUpdateEvent → s.update ≠ [] →
      s.fullUpdate = false →
      mainEvent s e = some ({ update := [], fullUpdate := true, dampT := s.dampT }, [])) ∧
    (∀ s : MainState, Reachable accounts s → s.fullUpdate = true → s.update = []) ∧
    (∀ (s : MainState) (e : Event) (s1 : MainState) (effs : List Effect),
      s.fullUpdate = true → mainEvent s e = some (s1, effs) → s1 = s ∧ effs = []) ∧
    (∀ (s : MainState) (order : List String → List String), Reachable accounts s →
      s.fullUpdate = true → (∀ l, (order l).Perm l) →
      mainTimer accounts order s = some (mainInit, [Effect.runUpdateScript []])) := by
  refine ⟨?_, ?_, ?_, ?_⟩
  · intro s e hE hne hf
    obtain ⟨update, fullUpdate, dampT⟩ := s
    simp only at hne hf
    subst hf
    cases update with
    | nil => exact absurd rfl hne
    | cons k ks =>
      have hNF : FullUpdateEvent ≠ NewMailEvent := by decide
      simp [mainEvent, hE, hNF]
  · intro s hr
    exact reachable_flag_empty accounts s hr
  · intro s e s1 effs hs h
    exact mainEvent_flag_set s e s1 effs hs h
  · intro s order hr hf horder
    have hnil : s.update = [] := reachable_flag_empty accounts s hr hf
    have hord : order s.update = [] := by
      rw [hnil]
      exact List.Perm.eq_nil (horder [])
    simp [mainTimer, hord, collectChannels, mainInit]

theorem fullUpdate_supersedes_witness :
    mainEvent { update := ["A"], fullUpdate := false, dampT := true } ⟨FullUpdateEvent, none⟩ =
      some ({ update := [], fullUpdate := true, dampT := true }, []) ∧
    (({ update := [], fullUpdate := true, dampT := true } : MainState).update = []) ∧
    mainTimer threeAccounts List.reverse { update := [], fullUpdate := true, dampT := true } =
      some (mainInit, [Effect.runUpdateScript []]) :=
  ⟨(fullUpdate_supersedes threeAccounts).1
      { update := ["A"], fullUpdate := false, dampT := true } ⟨FullUpdateEvent, none⟩
      rfl (by decide) rfl,
   (fullUpdate_supersedes threeAccounts).2.1 _ reachable_after_fullUpdate rfl,
   (fullUpdate_supersedes threeAccounts).2.2.2 _ List.reverse reachable_after_fullUpdate rfl
      (fun l => List.reverse_perm l)⟩

/-- C5: handling an event resets the debounce timer only if the pending set is
empty and the flag unset at that moment; in every reachable state the timer is
armed exactly when the pending set is non-empty or the flag is set; so an
event that resets the timer finds it not armed, and a timer fire resets
nothing and leaves the timer not armed. -/
theorem dampT_reset_only_when_idle (accounts : List (String × Account)) :
    (∀ (s : MainState) (e : Event) (s1 : MainState) (effs : List Effect),
      mainEvent s e = some (s1, effs) → Effect.resetDampT ∈ effs →
      s.update = [] ∧ s.fullUpdate = false) ∧
    (∀ s : MainState, Reachable accounts s →
      (s.dampT = true ↔ (s.update ≠ [] ∨ s.fullUpdate = true))) ∧
    (∀ (s : MainState) (e : Event) (s1 : MainState) (effs : List Effect),
      Reachable accounts s → mainEvent s e = some (s1, effs) → Effect.resetDampT ∈ effs →
      s.dampT = false ∧ s1.dampT = true) ∧
    (∀ (s : MainState) (order : List String → List String) (s1 : MainState)
      (effs : List Effect), mainTimer accounts order s = some (s1, effs) →
      Effect.resetDampT ∉ effs ∧ s1.dampT = false) := by
  have hreset : ∀ (s : MainState) (e : Event) (s1 : MainState) (effs : List Effect),
      mainEvent s e = some (s1, effs) → Effect.resetDampT ∈ effs →
      s.update = [] ∧ s.fullUpdate = false ∧ s1.dampT = true := by
    intro s e s1 effs h hmem
    rcases mainEvent_cases s e s1 effs h with
      h1 | ⟨_, hf, hu, h1, _⟩ | ⟨_, _, _, _, h1⟩ | ⟨_, _, _, h1⟩ | ⟨hf, hu, h1, _⟩
    · rw [h1.2] at hmem; simp at hmem
    · exact ⟨hu, hf, by rw [h1]⟩
    · rw [h1] at hmem; simp at hmem
    · rw [h1] at hmem; simp at hmem
    · exact ⟨hu, hf, by rw [h1]⟩
  refine ⟨?_, ?_, ?_, ?_⟩
  · intro s e s1 effs h hmem
    exact ⟨(hreset s e s1 effs h hmem).1, (hreset s e s1 effs h hmem).2.1⟩
  · intro s hr
    exact reachable_armed_iff accounts s hr
  · intro s e s1 effs hr h hmem
    obtain ⟨hu, hf, hd⟩ := hreset s e s1 effs h hmem
    refine ⟨?_, hd⟩
    cases hdt : s.dampT with
    | false => rfl
    | true =>
      rcases (reachable_armed_iff accounts s hr).1 hdt with h1 | h1
      · exact absurd hu h1
      · rw [hf] at h1; cases h1
  · intro s order s1 effs h
    obtain ⟨hs1, channels, heffs⟩ := mainTimer_state accounts order s s1 effs h
    rw [hs1, heffs]
    exact ⟨by simp, rfl⟩

theorem dampT_reset_only_when_idle_witness :
    (mainInit.update = [] ∧ mainInit.fullUpdate = false) ∧
    ((({ update := ["A"], fullUpdate := false, dampT := true } : MainState).dampT = true) ↔
      (({ update := ["A"], fullUpdate := false, dampT := true } : MainState).update ≠ [] ∨
       ({ update := ["A"], fullUpdate := false, dampT := true } : MainState).fullUpdate = true)) ∧
    (mainInit.dampT = false ∧
      ({ update := ["A"], fullUpdate := false, dampT := true } : MainState).dampT = true) :=
  ⟨(dampT_reset_only_when_idle threeAccounts).1 mainInit (newMailFrom "A" "a:INBOX")
      { update := ["A"], fullUpdate := false, dampT := true } [Effect.resetDampT]
      (by decide) (by decide),
   (dampT_reset_only_when_idle threeAccounts).2.1 _ reachable_after_newMail,
   (dampT_reset_only_when_idle threeAccounts).2.2.1 mainInit (newMailFrom "A" "a:INBOX")
      { update := ["A"], fullUpdate := false, dampT := true } [Effect.resetDampT]
      Reachable.init (by decide) (by decide)⟩

/-! ## The update script -/

theorem foldl_append_singleton (names init : List String) :
    names.foldl (fun args name => args ++ [name]) init = init ++ names := by
  induction names generalizing init with
  | nil => simp
  | cons x xs ih => simp [List.foldl, ih]

theorem updateArgs_eq (updateNames : List String) :
    updateArgs updateNames = List.replicate (updateNames.length + 1) "" ++ updateNames := by
  unfold updateArgs
  exact foldl_append_singleton updateNames _

/-- C6 fails on the code: for the single label "work:INBOX" the argument vector
handed to the script is `["", "", "work:INBOX"]`, of length 3, and its tail is
not the list of labels; for every list of labels the vector is
`len(updateNames)+1` empty strings followed by the labels. -/
theorem runUpdateScript_args_padded :
    runUpdateScript (fun _ => .ok "/usr/bin/upd") "upd" ["work:INBOX"] =
      some { Path := "/usr/bin/upd", Args := ["", "", "work:INBOX"] } ∧
    (updateArgs ["work:INBOX"]).length = 3 ∧
    (updateArgs ["work:INBOX"]).drop 1 ≠ ["work:INBOX"] ∧
    (∀ updateNames : List String,
      updateArgs updateNames =
        List.replicate (updateNames.length + 1) "" ++ updateNames ∧
      (updateArgs updateNames).length = 2 * updateNames.length + 1) := by
  refine ⟨by decide, by decide, by decide, ?_⟩
  intro updateNames
  refine ⟨updateArgs_eq updateNames, ?_⟩
  rw [updateArgs_eq]
  simp
  omega

/-! ## The target list -/

theorem collectChannels_updateNameOf (accounts : List (String × Account)) (ks : List String)
    (hall : ∀ k ∈ ks, ∃ acct, accounts.lookup k = some acct) :
    collectChannels accounts ks = some (ks.map (updateNameOf accounts)) := by
  induction ks with
  | nil => rfl
  | cons k ks ih =>
    obtain ⟨acct, hk⟩ := hall k (List.mem_cons_self k ks)
    have h := ih (fun k1 h1 => hall k1 (List.mem_cons_of_mem k h1))
    simp [collectChannels, hk, h, updateNameOf]

/-- The pending set holds no account name twice. -/
theorem reachable_nodup (accounts : List (String × Account)) (s : MainState)
    (hr : Reachable accounts s) : s.update.Nodup := by
  induction hr with
  | init => simp [mainInit]
  | event s e s1 effs _ hstep ih =>
    rcases mainEvent_cases s e s1 effs hstep with
      h1 | ⟨acct, _, _, h1, _⟩ | ⟨acct, _, _, h1, _⟩ | ⟨_, _, h1, _⟩ | ⟨_, _, h1, _⟩
    · rw [h1.1]; exact ih
    · rw [h1]; exact updateSet_nodup s.update acct.Name ih
    · rw [h1]; exact updateSet_nodup s.update acct.Name ih
    · rw [h1]; exact List.nodup_nil
    · rw [h1]; exact List.nodup_nil
  | timer s order s1 effs _ _ _ hstep _ =>
    rw [(mainTimer_state accounts order s s1 effs hstep).1]
    simp [mainInit]

theorem count_map_eq_countP (f : String → String) (l : List String) (x : String) :
    (l.map f).count x = List.countP (fun k => decide (f k = x)) l := by
  induction l with
  | nil => rfl
  | cons k ks ih =>
    simp only [List.map_cons, List.count_cons, List.countP_cons, ih, beq_iff_eq,
      decide_eq_true_eq]

theorem count_map_perm (f : String → String) (l l1 : List String) (hperm : l1.Perm l)
    (x : String) :
    (l1.map f).count x = (l.filter (fun k => decide (f k = x))).length := by
  rw [count_map_eq_countP, hperm.countP_eq, List.countP_eq_length_filter]

/-- C7, as stated, fails: the restrictions `s1:x` and `s2:x` give both accounts
the label "x:INBOX", and with both pending the timer fire builds the target
list `["x:INBOX", "x:INBOX"]`. -/
theorem mainTimer_repeats_label :
    (mainAccounts ["s1:x", "s2:x"] 300 twoStores).map
        (fun m => m.map (fun p => (p.1, p.2.UpdateName))) =
      some [("s1", "x:INBOX"), ("s2", "x:INBOX")] ∧
    (mainAccounts ["s1:x", "s2:x"] 300 twoStores).bind
        (fun accounts => mainTimer accounts id
          { update := ["s1", "s2"], fullUpdate := false, dampT := true }) =
      some (mainInit, [Effect.runUpdateScript ["x:INBOX", "x:INBOX"]]) ∧
    ¬ (["x:INBOX", "x:INBOX"] : List String).Nodup := by
  decide

/-- C7, amended: in a reachable state whose pending accounts are all in
`accounts`, the pending set holds no account twice and the timer fire calls
`runUpdateScript` with the pending accounts' `UpdateName`s, one entry per
pending account in the order the range visits them; a label occurs in the
list as many times as there are pending accounts with that `UpdateName`, so
the list has no label twice exactly when no two pending accounts share one. -/
theorem mainTimer_labels (accounts : List (String × Account))
    (order : List String → List String) (horder : ∀ l, (order l).Perm l)
    (s : MainState) (hr : Reachable accounts s)
    (hfound : ∀ k ∈ s.update, ∃ acct, accounts.lookup k = some acct) :
    s.update.Nodup ∧
    mainTimer accounts order s =
      some (mainInit,
        [Effect.runUpdateScript ((order s.update).map (updateNameOf accounts))]) ∧
    (∀ k ∈ s.update, ∃ acct, accounts.lookup k = some acct ∧
      updateNameOf accounts k = acct.UpdateName) ∧
    ((order s.update).map (updateNameOf accounts)).length = s.update.length ∧
    (∀ x : String,
      ((order s.update).map (updateNameOf accounts)).count x =
        (s.update.filter (fun k => decide (updateNameOf accounts k = x))).length) ∧
    (((order s.update).map (updateNameOf accounts)).Nodup ↔
      ∀ k1 ∈ s.update, ∀ k2 ∈ s.update,
        updateNameOf accounts k1 = updateNameOf accounts k2 → k1 = k2) := by
  have hperm := horder s.update
  have hnd := reachable_nodup accounts s hr
  have hfound1 : ∀ k ∈ order s.update, ∃ acct, accounts.lookup k = some acct :=
    fun k hk => hfound k (hperm.mem_iff.1 hk)
  have hc := collectChannels_updateNameOf accounts (order s.update) hfound1
  refine ⟨hnd, ?_, ?_, ?_, ?_, ?_⟩
  · simp [mainTimer, hc, mainInit]
  · intro k hk
    obtain ⟨acct, hacct⟩ := hfound k hk
    exact ⟨acct, hacct, by simp [updateNameOf, hacct]⟩
  · rw [List.length_map]
    exact hperm.length_eq
  · intro x
    exact count_map_perm (updateNameOf accounts) s.update (order s.update) hperm x
  · constructor
    · intro hmap k1 h1 k2 h2 heq
      exact List.inj_on_of_nodup_map hmap (hperm.mem_iff.2 h1) (hperm.mem_iff.2 h2) heq
    · intro hinj
      apply List.Nodup.map_on
      · intro k1 h1 k2 h2 heq
        exact hinj k1 (hperm.mem_iff.1 h1) k2 (hperm.mem_iff.1 h2) heq
      · exact hperm.nodup_iff.2 hnd

theorem reachable_threePending : Reachable sharedAccounts threePending :=
  Reachable.event { update := ["s1", "s2"], fullUpdate := false, dampT := true }
    (newMailFrom "s3" "y:INBOX") _ []
    (Reachable.event { update := ["s1"], fullUpdate := false, dampT := true }
      (newMailFrom "s2" "x:INBOX") _ []
      (Reachable.event mainInit (newMailFrom "s1" "x:INBOX") _ [Effect.resetDampT]
        Reachable.init (by decide))
      (by decide))
    (by decide)

theorem mainTimer_labels_witness :
    threePending.update.Nodup ∧
    mainTimer sharedAccounts List.reverse threePending =
      some (mainInit,
        [Effect.runUpdateScript
          ((List.reverse threePending.update).map (updateNameOf sharedAccounts))]) ∧
    (∀ k ∈ threePending.update, ∃ acct, sharedAccounts.lookup k = some acct ∧
      updateNameOf sharedAccounts k = acct.UpdateName) ∧
    ((List.reverse threePending.update).map (updateNameOf sharedAccounts)).length =
      threePending.update.length ∧
    (∀ x : String,
      ((List.reverse threePending.update).map (updateNameOf sharedAccounts)).count x =
        (threePending.update.filter
          (fun k => decide (updateNameOf sharedAccounts k = x))).length) ∧
    (((List.reverse threePending.update).map (updateNameOf sharedAccounts)).Nodup ↔
      ∀ k1 ∈ threePending.update, ∀ k2 ∈ threePending.update,
        updateNameOf sharedAccounts k1 = updateNameOf sharedAccounts k2 → k1 = k2) :=
  mainTimer_labels sharedAccounts List.reverse (fun l => List.reverse_perm l) threePending
    reachable_threePending
    (by
      intro k hk
      simp only [threePending, List.mem_cons, List.mem_singleton, List.not_mem_nil,
        or_false] at hk
      rcases hk with rfl | rfl | rfl
      · exact ⟨acctNamed "s1" "x:INBOX", by decide⟩
      · exact ⟨acctNamed "s2" "x:INBOX", by decide⟩
      · exact ⟨acctNamed "s3" "y:INBOX", by decide⟩)

/-! ## Splitting on the colon -/

theorem splitChars_ne_nil (sep : Char) (cs : List Char) : splitChars sep cs ≠ [] := by
  cases cs with
  | nil => simp [splitChars]
  | cons c cs =>
    unfold splitChars
    by_cases h : c = sep
    · simp [h]
    · simp only [h, if_false]
      split <;> simp

theorem splitChars_no_sep (sep : Char) (cs : List Char) (h : sep ∉ cs) :
    splitChars sep cs = [cs] := by
  induction cs with
  | nil => rfl
  | cons c cs ih =>
    have hc : c ≠ sep := fun hc => h (by rw [hc]; exact List.mem_cons_self sep cs)
    have hcs : sep ∉ cs := fun hm => h (List.mem_cons_of_mem c hm)
    simp [splitChars, hc, ih hcs]

theorem splitChars_append_sep (sep : Char) (pre rest : List Char) (h : sep ∉ pre) :
    splitChars sep (pre ++ sep :: rest) = pre :: splitChars sep rest := by
  induction pre with
  | nil => simp [splitChars]
  | cons c cs ih =>
    have hc : c ≠ sep := fun hc => h (by rw [hc]; exact List.mem_cons_self sep cs)
    have hcs : sep ∉ cs := fun hm => h (List.mem_cons_of_mem c hm)
    simp [splitChars, hc, ih hcs]

theorem stringsSplitColon_two (k x : String) (hk : ':' ∉ k.data) (hx : ':' ∉ x.data) :
    stringsSplitColon (k ++ ":" ++ x) = [k, x] := by
  have hdata : (k ++ ":" ++ x).data = k.data ++ ':' :: x.data := by
    simp [String.data_append]
  unfold stringsSplitColon
  rw [hdata, splitChars_append_sep ':' k.data x.data hk, splitChars_no_sep ':' x.data hx]
  rfl

theorem stringsSplitColon_three (k ch mb : String) (hk : ':' ∉ k.data) (hch : ':' ∉ ch.data)
    (hmb : ':' ∉ mb.data) :
    stringsSplitColon (k ++ ":" ++ ch ++ ":" ++ mb) = [k, ch, mb] := by
  have hdata : (k ++ ":" ++ ch ++ ":" ++ mb).data = k.data ++ ':' :: (ch.data ++ ':' :: mb.data) := by
    simp [String.data_append]
  unfold stringsSplitColon
  rw [hdata, splitChars_append_sep ':' k.data _ hk, splitChars_append_sep ':' ch.data _ hch,
    splitChars_no_sep ':' mb.data hmb]
  rfl

/-! ## Account set-up -/

theorem checkStoresLoop_skip (k : String) (pre rest : List String)
    (hpre : ∀ cs ∈ pre, (stringsSplitColon cs).headD "" ≠ k) (idx i : Nat) (a : Account) :
    checkStoresLoop k (pre ++ rest) idx i a =
      checkStoresLoop k rest (idx + pre.length) (if pre = [] then i else idx + pre.length - 1) a := by
  induction pre generalizing idx i with
  | nil => simp
  | cons c cs ih =>
    have hc : (stringsSplitColon c).headD "" ≠ k := hpre c (List.mem_cons_self c cs)
    have hcs : ∀ c1 ∈ cs, (stringsSplitColon c1).headD "" ≠ k :=
      fun c1 h1 => hpre c1 (List.mem_cons_of_mem c h1)
    simp only [List.cons_append, checkStoresLoop, ne_eq, hc, not_false_eq_true, if_true,
      List.append_eq]
    rw [ih hcs (idx + 1) idx]
    by_cases hnil : cs = []
    · subst hnil
      simp
    · simp only [hnil, if_false, List.length_cons]
      have e1 : idx + 1 + cs.length = idx + (cs.length + 1) := by omega
      simp [e1]

theorem checkStoresLoop_index (k : String) (cs : List String) :
    ∀ (idx i : Nat) (a : Account), cs ≠ [] →
      (checkStoresLoop k cs idx i a).1 < idx + cs.length := by
  induction cs with
  | nil => intro _ _ _ h; exact absurd rfl h
  | cons c rest ih =>
    intro idx i a _
    unfold checkStoresLoop
    by_cases hm : (stringsSplitColon c).headD "" ≠ k
    · rw [if_pos hm]
      by_cases hrest : rest = []
      · subst hrest
        simp [checkStoresLoop]
      · have := ih (idx + 1) idx a hrest
        simp only [List.length_cons]
        omega
    · rw [if_neg hm]
      simp only [List.length_cons]
      split_ifs <;> simp

theorem checkStoresLoop_not_skipped (k : String) (checkStores : List String) (a : Account)
    (hcs : checkStores ≠ []) :
    (match checkStoresLoop k checkStores 0 0 a with
      | (_, none) => StoreResult.exited
      | (i, some a1) =>
        if i = checkStores.length then StoreResult.skipped
        else StoreResult.added a1) ≠ StoreResult.skipped := by
  have hidx := checkStoresLoop_index k checkStores 0 0 a hcs
  generalize checkStoresLoop k checkStores 0 0 a = r at hidx
  obtain ⟨i, oa⟩ := r
  cases oa with
  | none => simp
  | some a1 =>
    have hne : i ≠ checkStores.length := by simp only at hidx; omega
    simp [hne]

theorem mainStore_restricted_not_skipped (checkStores : List String) (interval : Nat)
    (k : String) (v : IMAPStore) (hcs : checkStores ≠ []) (hch : v.Channels ≠ []) :
    mainStore checkStores interval k v ≠ StoreResult.skipped := by
  have hlen : v.Channels.length ≠ 0 := by
    intro h; exact hch (List.length_eq_zero.1 h)
  have hlen2 : checkStores.length ≠ 0 := by
    intro h; exact hcs (List.length_eq_zero.1 h)
  unfold mainStore
  simp only [hlen, if_false, hlen2, ne_eq, not_false_eq_true, if_true]
  exact checkStoresLoop_not_skipped k checkStores _ hcs

theorem mainStore_first_match (interval : Nat) (k : String) (v : IMAPStore)
    (hch : v.Channels ≠ []) (pre post : List String) (c : String)
    (hpre : ∀ cs ∈ pre, (stringsSplitColon cs).headD "" ≠ k) :
    (∀ x, stringsSplitColon c = [k, x] →
      ∃ a, mainStore (pre ++ c :: post) interval k v = StoreResult.added a ∧
        a.UpdateName = x ++ ":INBOX") ∧
    (∀ ch mb, stringsSplitColon c = [k, ch, mb] →
      ∃ a, mainStore (pre ++ c :: post) interval k v = StoreResult.added a ∧
        a.UpdateName = ch ++ ":" ++ mb) := by
  have hlen : v.Channels.length ≠ 0 := by
    intro h; exact hch (List.length_eq_zero.1 h)
  have hidx : pre.length ≠ pre.length + (post.length + 1) := by omega
  constructor
  · intro x hvals
    unfold mainStore
    simp only [hlen, if_false, List.length_append, List.length_cons, ne_eq, Nat.add_eq_zero,
      List.length_eq_zero, Nat.succ_ne_zero, and_false, not_false_eq_true, if_true]
    rw [checkStoresLoop_skip k pre (c :: post) hpre]
    simp [checkStoresLoop, hvals, hidx]
  · intro ch mb hvals
    unfold mainStore
    simp only [hlen, if_false, List.length_append, List.length_cons, ne_eq, Nat.add_eq_zero,
      List.length_eq_zero, Nat.succ_ne_zero, and_false, not_false_eq_true, if_true]
    rw [checkStoresLoop_skip k pre (c :: post) hpre]
    simp [checkStoresLoop, hvals, hidx, stringsJoinColon]

/-- C8, as stated, fails: for the store "work" the restriction `work:Sent`
gives the label "Sent:INBOX", not "work:Sent". -/
theorem mainStore_override_label :
    (match mainStore ["work:Sent"] 300 "work" (storeNamed "work" "mail") with
      | StoreResult.added a => some a.UpdateName
      | _ => none) = some "Sent:INBOX" ∧
    ("Sent:INBOX" : String) ≠ "work:Sent" := by
  decide

/-- C8, amended: for a store `k` with at least one channel, no restriction at
all gives the label "<first-channel-name>:INBOX"; when the first restriction
naming the store is `k:x` the label is "x:INBOX"; when it is `k:ch:mb` the
label is "ch:mb". -/
theorem mainStore_updateName (interval : Nat) (k : String) (v : IMAPStore)
    (hch : v.Channels ≠ []) :
    (∃ a, mainStore [] interval k v = StoreResult.added a ∧
      a.UpdateName = firstChannelName v.Channels ++ ":INBOX") ∧
    (∀ (pre post : List String) (x : String), ':' ∉ k.data → ':' ∉ x.data →
      (∀ cs ∈ pre, (stringsSplitColon cs).headD "" ≠ k) →
      ∃ a, mainStore (pre ++ (k ++ ":" ++ x) :: post) interval k v = StoreResult.added a ∧
        a.UpdateName = x ++ ":INBOX") ∧
    (∀ (pre post : List String) (ch mb : String), ':' ∉ k.data → ':' ∉ ch.data →
      ':' ∉ mb.data → (∀ cs ∈ pre, (stringsSplitColon cs).headD "" ≠ k) →
      ∃ a, mainStore (pre ++ (k ++ ":" ++ ch ++ ":" ++ mb) :: post) interval k v =
          StoreResult.added a ∧
        a.UpdateName = ch ++ ":" ++ mb) := by
  have hlen : v.Channels.length ≠ 0 := by
    intro h; exact hch (List.length_eq_zero.1 h)
  refine ⟨?_, ?_, ?_⟩
  · simp [mainStore, hlen]
  · intro pre post x hk hx hpre
    exact (mainStore_first_match interval k v hch pre post _ hpre).1 x
      (stringsSplitColon_two k x hk hx)
  · intro pre post ch mb hk hc hm hpre
    exact (mainStore_first_match interval k v hch pre post _ hpre).2 ch mb
      (stringsSplitColon_three k ch mb hk hc hm)

theorem mainStore_updateName_witness :
    (∃ a, mainStore [] 300 "work" (storeNamed "work" "mail") = StoreResult.added a ∧
      a.UpdateName = firstChannelName (storeNamed "work" "mail").Channels ++ ":INBOX") ∧
    (∃ a, mainStore (["home"] ++ ("work" ++ ":" ++ "Sent") :: ["work:x:y"]) 300 "work"
          (storeNamed "work" "mail") = StoreResult.added a ∧
      a.UpdateName = "Sent" ++ ":INBOX") ∧
    (∃ a, mainStore (["home"] ++ ("work" ++ ":" ++ "mail" ++ ":" ++ "Sent") :: []) 300 "work"
          (storeNamed "work" "mail") = StoreResult.added a ∧
      a.UpdateName = "mail" ++ ":" ++ "Sent") :=
  ⟨(mainStore_updateName 300 "work" (storeNamed "work" "mail") (by decide)).1,
   (mainStore_updateName 300 "work" (storeNamed "work" "mail") (by decide)).2.1
      ["home"] ["work:x:y"] "Sent" (by decide) (by decide)
      (by
        intro cs hcs
        simp only [List.mem_singleton] at hcs
        rw [hcs]
        decide),
   (mainStore_updateName 300 "work" (storeNamed "work" "mail") (by decide)).2.2
      ["home"] [] "mail" "Sent" (by decide) (by decide) (by decide)
      (by
        intro cs hcs
        simp only [List.mem_singleton] at hcs
        rw [hcs]
        decide)⟩

/-- C9 fails on the code: with the restriction list `["b"]`, which does not
name the store "a", the store is not skipped: it is added to `accounts` with
an empty `UpdateName` and is among the accounts taken online. -/
theorem mainStore_unmatched_added :
    (stringsSplitColon "b").headD "" ≠ "a" ∧
    mainStore ["b"] 300 "a" (storeNamed "a" "mail") ≠ StoreResult.skipped ∧
    (checkStoresLoop "a" ["b"] 0 0 (acctNamed "a" "")).1 = 0 ∧
    (mainAccounts ["b"] 300 [("a", storeNamed "a" "mail")]).map
        (fun m => m.map (fun p => (p.1, p.2.UpdateName))) = some [("a", "")] ∧
    (mainAccounts ["b"] 300 [("a", storeNamed "a" "mail")]).map
        (fun m => (mainOnline m).map (fun acct => acct.Name)) = some ["a"] := by
  decide

/-! ## Login failures -/

/-- C10 fails on the code: when the dial succeeds and `a.c.Login` refuses the
credentials, `Login` returns the error with the session `a.c` still set; the
pass of the `Online` loop goes on to pause and poll, and the next pass does
not call `Login` again. The session also stays set when the TLS upgrade or
the capability query fails; it is nil after a failed password command or a
failed dial. -/
theorem Login_failure_keeps_session :
    (Login authRefused (acctNamed "A" "a:INBOX")).2 = some "authentication failed" ∧
    (Login authRefused (acctNamed "A" "a:INBOX")).1.c = some ⟨1, false⟩ ∧
    (onlineIter authRefusedPass (acctNamed "A" "a:INBOX")).2 =
      [Obs.login (some "authentication failed"), Obs.pollPause, Obs.checkForNew] ∧
    (onlineIter authRefusedPass (onlineIter authRefusedPass (acctNamed "A" "a:INBOX")).1).2 =
      [Obs.pollPause, Obs.checkForNew] ∧
    (Login tlsRefused { acctNamed "A" "a:INBOX" with StartTLS := true }).2 =
      some "tls: handshake failure" ∧
    (Login tlsRefused { acctNamed "A" "a:INBOX" with StartTLS := true }).1.c =
      some ⟨1, false⟩ ∧
    (Login supportFailed (acctNamed "A" "a:INBOX")).2 = some "connection closed" ∧
    (Login supportFailed (acctNamed "A" "a:INBOX")).1.c = some ⟨1, false⟩ ∧
    (Login dialFailed (acctNamed "A" "a:INBOX")).2 = some "connection refused" ∧
    (Login dialFailed (acctNamed "A" "a:INBOX")).1.c = none ∧
    (Login passFailed { acctNamed "A" "a:INBOX" with password := "" }).2 =
      some "exit status 1" ∧
    (Login passFailed { acctNamed "A" "a:INBOX" with password := "" }).1.c = none := by
  decide

theorem Login_dial_error (w : LoginWorld) (a : Account) (hc : a.c = none) (err : GoError)
    (hd : w.dial = .error err) : (Login w a).1.c = none ∧ (Login w a).2 ≠ none := by
  unfold Login
  by_cases hp : a.password = ""
  · cases hg : w.getPass with
    | error e => simp [hp, hg, hc]
    | ok p =>
      by_cases hs : a.StartTLS = true <;> simp [hp, hg, hc, connect, hd, hs]
  · by_cases hs : a.StartTLS = true <;> simp [hp, hc, connect, hd, hs]

theorem Login_getPass_error (w : LoginWorld) (a : Account) (hc : a.c = none)
    (hp : a.password = "") (err : GoError) (hg : w.getPass = .error err) :
    (Login w a).1.c = none ∧ (Login w a).2 = some err := by
  unfold Login
  simp [hp, hg, hc]

theorem Login_auth_error (w : LoginWorld) (a : Account) (hc : a.c = none)
    (hp : a.password ≠ "") (cl : Client) (hd : w.dial = .ok cl) (hs : w.startTLS = none)
    (err : GoError) (hl : w.login = some err) :
    (Login w a).1.c = some cl ∧ (Login w a).2 = some err := by
  unfold Login
  by_cases hst : a.StartTLS = true <;> simp [hp, hc, connect, hd, hs, hst, authenticate, hl]

/-! ## The IDLE response handler -/

theorem doneBytes_eq : doneBytes = "DONE\r\n".data.map Char.toNat := by decide

theorem handleAll_flag_set (resps : List Resp) (r : Response)
    (hr : r.gotContinuationReq = true) :
    handleAll r resps = (r, resps.map (fun _ => some ErrUnhandled)) := by
  induction resps with
  | nil => rfl
  | cons x xs ih =>
    have hx : r.Handle x = (r, some ErrUnhandled) := by
      simp [Response.Handle, hr]
    simp [handleAll, hx, ih]

theorem handleAll_no_continuation (pre rest : List Resp) (r : Response)
    (hpre : ∀ x ∈ pre, x.isContinuationReq = false) :
    handleAll r (pre ++ rest) =
      ((handleAll r rest).1,
        pre.map (fun _ => some ErrUnhandled) ++ (handleAll r rest).2) := by
  induction pre with
  | nil => simp
  | cons x xs ih =>
    have hx : r.Handle x = (r, some ErrUnhandled) := by
      simp [Response.Handle, hpre x (List.mem_cons_self x xs)]
    have ih1 := ih (fun y hy => hpre y (List.mem_cons_of_mem x hy))
    simp [handleAll, hx, ih1]

theorem step_flag (r : Response) (s : RespStep) (hr : r.gotContinuationReq = true) :
    (r.step s).gotContinuationReq = true := by
  cases s with
  | handle resp => simp [Response.step, Response.Handle, hr]
  | closeStop => simpa [Response.step] using hr
  | waiter =>
    simp only [Response.step]
    split <;> simpa [Response.stop] using hr

theorem steps_flag (ss : List RespStep) (r : Response) (hr : r.gotContinuationReq = true) :
    (r.steps ss).gotContinuationReq = true := by
  induction ss generalizing r with
  | nil => exact hr
  | cons s rest ih => exact ih (r.step s) (step_flag r s hr)

theorem step_wellCounted (r : Response) (s : RespStep) (hr : r.wellCounted) :
    (r.step s).wellCounted := by
  obtain ⟨hcount, hdone⟩ := hr
  cases s with
  | handle resp =>
    simp only [Response.step, Response.Handle]
    by_cases hc : resp.isContinuationReq = true
    · cases hg : r.gotContinuationReq with
      | true => simpa [hc, hg, Response.wellCounted] using ⟨by simpa [hg] using hcount, hdone⟩
      | false =>
        simp only [hg, if_false, Bool.false_eq_true] at hcount
        simp only [hc, hg, Bool.not_false, Bool.and_self, if_true, Response.wellCounted]
        refine ⟨by omega, hdone⟩
    · simp only [hc, Bool.false_and, Bool.false_eq_true, if_false]
      exact ⟨hcount, hdone⟩
  | closeStop => exact ⟨hcount, hdone⟩
  | waiter =>
    simp only [Response.step]
    split
    · rename_i hcond
      simp only [Bool.and_eq_true, decide_eq_true_eq] at hcond
      simp only [Response.wellCounted, Response.stop, List.length_append, List.length_singleton,
        List.mem_append, List.mem_singleton]
      refine ⟨by omega, ?_⟩
      rintro b (hb | hb)
      · exact hdone b hb
      · exact hb
    · exact ⟨hcount, hdone⟩

theorem steps_wellCounted (ss : List RespStep) (r : Response) (hr : r.wellCounted) :
    (r.steps ss).wellCounted := by
  induction ss generalizing r with
  | nil => exact hr
  | cons s rest ih => exact ih (r.step s) (step_wellCounted r s hr)

/-- C11: for a `Response` whose flag is unset, `Handle` over any sequence of
responses returns nil for the first continuation request and `ErrUnhandled`
for every other response, later continuation requests included; a step never
unsets the flag; and however the `Handle` calls, the closing of `Stop` and the
stop-waiter interleave, at most one waiter is started and at most one
`DONE\r\n` is sent on the reply stream, nothing else. -/
theorem Handle_one_shot (r : Response) (hr : r.gotContinuationReq = false)
    (hch : r.RepliesCh = []) (hw : r.waiters = 0) (resps : List Resp) :
    ((∀ x ∈ resps, x.isContinuationReq = false) →
      handleAll r resps = (r, resps.map (fun _ => some ErrUnhandled))) ∧
    (∀ (pre : List Resp) (c : Resp) (post : List Resp), resps = pre ++ c :: post →
      (∀ x ∈ pre, x.isContinuationReq = false) → c.isContinuationReq = true →
      handleAll r resps =
        ({ r with gotContinuationReq := true, waiters := 1 },
          pre.map (fun _ => some ErrUnhandled) ++
            none :: post.map (fun _ => some ErrUnhandled))) ∧
    (∀ (q : Response) (ss : List RespStep), q.gotContinuationReq = true →
      (q.steps ss).gotContinuationReq = true) ∧
    (∀ ss : List RespStep,
      (r.steps ss).RepliesCh.length + (r.steps ss).waiters ≤ 1 ∧
      ((r.steps ss).RepliesCh = [] ∨ (r.steps ss).RepliesCh = [doneBytes])) := by
  refine ⟨?_, ?_, ?_, ?_⟩
  · intro hnone
    have h := handleAll_no_continuation resps [] r hnone
    simpa [handleAll] using h
  · intro pre c post hresps hpre hc
    have hstep : r.Handle c = ({ r with gotContinuationReq := true, waiters := 1 }, none) := by
      simp [Response.Handle, hc, hr, hw]
    rw [hresps, handleAll_no_continuation pre (c :: post) r hpre]
    simp only [handleAll, hstep]
    rw [handleAll_flag_set post _ rfl]
  · intro q ss hq
    exact steps_flag ss q hq
  · intro ss
    have h0 : r.wellCounted := by
      refine ⟨by simp [hch, hw, hr], ?_⟩
      intro b hb
      rw [hch] at hb
      simp at hb
    obtain ⟨hcount, hdone⟩ := steps_wellCounted ss r h0
    have hle : (r.steps ss).RepliesCh.length + (r.steps ss).waiters ≤ 1 := by
      rw [hcount]; split <;> omega
    refine ⟨hle, ?_⟩
    cases hl : (r.steps ss).RepliesCh with
    | nil => exact Or.inl rfl
    | cons b bs =>
      right
      have hb : b = doneBytes := hdone b (by rw [hl]; exact List.mem_cons_self b bs)
      have hlen : bs.length = 0 := by
        have : (b :: bs).length + (r.steps ss).waiters ≤ 1 := by rw [← hl]; exact hle
        simp only [List.length_cons] at this
        omega
      rw [hb, List.length_eq_zero.1 hlen]

theorem Handle_one_shot_witness :
    handleAll newResponse
        ([Resp.dataResp "*" ["3", "EXISTS"]] ++ Resp.continuationReq "idling" ::
          [Resp.continuationReq "again", Resp.statusResp "a1" "OK"]) =
      ({ newResponse with gotContinuationReq := true, waiters := 1 },
        [Resp.dataResp "*" ["3", "EXISTS"]].map (fun _ => some ErrUnhandled) ++
          none :: [Resp.continuationReq "again", Resp.statusResp "a1" "OK"].map
            (fun _ => some ErrUnhandled)) ∧
    ((newResponse.steps [RespStep.handle (Resp.continuationReq "idling"),
        RespStep.closeStop, RespStep.waiter, RespStep.handle (Resp.continuationReq "again"),
        RespStep.waiter]).RepliesCh.length +
      (newResponse.steps [RespStep.handle (Resp.continuationReq "idling"),
        RespStep.closeStop, RespStep.waiter, RespStep.handle (Resp.continuationReq "again"),
        RespStep.waiter]).waiters ≤ 1 ∧
     ((newResponse.steps [RespStep.handle (Resp.continuationReq "idling"),
        RespStep.closeStop, RespStep.waiter, RespStep.handle (Resp.continuationReq "again"),
        RespStep.waiter]).RepliesCh = [] ∨
      (newResponse.steps [RespStep.handle (Resp.continuationReq "idling"),
        RespStep.closeStop, RespStep.waiter, RespStep.handle (Resp.continuationReq "again"),
        RespStep.waiter]).RepliesCh = [doneBytes])) :=
  ⟨(Handle_one_shot newResponse rfl rfl rfl _).2.1
      [Resp.dataResp "*" ["3", "EXISTS"]] (Resp.continuationReq "idling")
      [Resp.continuationReq "again", Resp.statusResp "a1" "OK"] rfl (by decide) rfl,
   (Handle_one_shot newResponse rfl rfl rfl []).2.2.2 _⟩

/-! ## The `Online` loop -/

theorem Idle_none_iff (a : Account) : Idle a = none ↔ (a.stopc = true ∨ a.c = none) := by
  unfold Idle
  cases hs : a.stopc <;> cases hc : a.c <;> simp

theorem PollPause_false_iff (a : Account) :
    PollPause a = false ↔ (a.c.isSome = true ∧ a.idleOk = true) := by
  unfold PollPause
  cases hc : a.c <;> cases hi : a.idleOk <;> simp

theorem connect_watch_fields (w : LoginWorld) (a : Account) :
    (connect w a).1.stopc = a.stopc ∧ (connect w a).1.t = a.t ∧
    (connect w a).1.donec = a.donec ∧ (connect w a).1.updatec = a.updatec := by
  unfold connect
  cases a.StartTLS <;> cases w.dial <;> cases w.startTLS <;> simp

theorem authenticate_watch_fields (w : LoginWorld) (a : Account) :
    (authenticate w a).1.stopc = a.stopc ∧ (authenticate w a).1.t = a.t ∧
    (authenticate w a).1.donec = a.donec ∧ (authenticate w a).1.updatec = a.updatec ∧
    (authenticate w a).1.c = a.c := by
  unfold authenticate
  cases w.login with
  | some err => simp
  | none =>
    obtain ⟨ok, oerr⟩ := w.support
    cases oerr <;> simp

theorem Login_watch_fields (w : LoginWorld) (a : Account) :
    (Login w a).1.stopc = a.stopc ∧ (Login w a).1.t = a.t ∧
    (Login w a).1.donec = a.donec ∧ (Login w a).1.updatec = a.updatec := by
  have key : ∀ a0 : Account,
      (match (if a0.c.isNone then connect w a0 else (a0, none) : Account × Option GoError) with
        | (a1, some err) => (a1, some err)
        | (a1, none) => authenticate w a1).1.stopc = a0.stopc ∧
      (match (if a0.c.isNone then connect w a0 else (a0, none) : Account × Option GoError) with
        | (a1, some err) => (a1, some err)
        | (a1, none) => authenticate w a1).1.t = a0.t ∧
      (match (if a0.c.isNone then connect w a0 else (a0, none) : Account × Option GoError) with
        | (a1, some err) => (a1, some err)
        | (a1, none) => authenticate w a1).1.donec = a0.donec ∧
      (match (if a0.c.isNone then connect w a0 else (a0, none) : Account × Option GoError) with
        | (a1, some err) => (a1, some err)
        | (a1, none) => authenticate w a1).1.updatec = a0.updatec := by
    intro a0
    have hc := connect_watch_fields w a0
    by_cases hn : a0.c.isNone = true
    · simp only [hn, if_true]
      rcases hcon : connect w a0 with ⟨a1, e1⟩
      rw [hcon] at hc
      have ha := authenticate_watch_fields w a1
      cases e1 with
      | some err => simpa using hc
      | none =>
        simp only at hc ⊢
        exact ⟨ha.1.trans hc.1, ha.2.1.trans hc.2.1, ha.2.2.1.trans hc.2.2.1,
          ha.2.2.2.1.trans hc.2.2.2⟩
    · simp only [hn, if_false, Bool.false_eq_true]
      have ha := authenticate_watch_fields w a0
      exact ⟨ha.1, ha.2.1, ha.2.2.1, ha.2.2.2.1⟩
  unfold Login
  by_cases hp : a.password = ""
  · cases hg : w.getPass with
    | error err => simp [hp]
    | ok p =>
      simp only [hp, if_true]
      exact key { a with password := p }
  · simp only [hp, if_false]
    exact key a

theorem selectInbox_cases (sel : Except GoError Nat) (a : Account) :
    (∃ err, selectInbox sel a = (a, some err)) ∨
    (∃ x : Int, selectInbox sel a = ({ a with MsgCount := x }, none)) := by
  cases sel with
  | error err => exact Or.inl ⟨err, by simp only [selectInbox]⟩
  | ok n => exact Or.inr ⟨wrapInt (Int.ofNat n), by simp only [selectInbox]⟩

theorem CheckForNew_cases (sel : Except GoError Nat) (a : Account) :
    ∃ (x : Int) (evs : List Event),
      CheckForNew sel a = ({ a with MsgCount := x }, evs) := by
  cases sel with
  | error err => exact ⟨a.MsgCount, [], by simp only [CheckForNew, checkForNew, selectInbox]⟩
  | ok n =>
    rw [CheckForNew_ok]
    split
    · exact ⟨wrapInt (Int.ofNat n),
        NewMail (checkForNew (.ok n) a).1 (checkForNew (.ok n) a).2.1,
        by simp only [checkForNew, selectInbox]⟩
    · exact ⟨wrapInt (Int.ofNat n), [], by simp only [checkForNew, selectInbox]⟩

theorem onlineSelect_update_cases (messages : Nat) (a : Account) (ht : a.t = true)
    (hu : a.updatec = true) :
    ∃ (x : Int) (evs : List Event),
      onlineSelect (Wake.update (some messages)) a =
        ({ a with MsgCount := x }, evs.map Obs.send) := by
  simp only [onlineSelect, ht, hu, Bool.not_true, Bool.false_eq_true, if_false]
  split
  · exact ⟨_, _, rfl⟩
  · exact ⟨_, [], rfl⟩

theorem setMsgCount_consistent (a : Account) (x : Int) (h : watchConsistent a) :
    watchConsistent { a with MsgCount := x } := h

theorem send_ne_marks (evs : List Event) :
    Obs.abort ∉ evs.map Obs.send ∧ Obs.blocked ∉ evs.map Obs.send ∧
    Obs.idle ∉ evs.map Obs.send := by
  refine ⟨?_, ?_, ?_⟩ <;>
  · intro h
    obtain ⟨e, _, he⟩ := List.mem_map.1 h
    cases he

theorem onlineSelect_watching (wake : Wake) (a : Account) (hs : a.stopc = true)
    (hc : a.c.isSome = true) (ht : a.t = true) (hd : a.donec = true)
    (hu : a.updatec = true) :
    Obs.abort ∉ (onlineSelect wake a).2 ∧ Obs.blocked ∉ (onlineSelect wake a).2 ∧
    Obs.idle ∉ (onlineSelect wake a).2 ∧
    watchConsistent (onlineSelect wake a).1 := by
  have hcons : watchConsistent a := ⟨fun _ => hc, by rw [ht, hs], by rw [hd, hs], by rw [hu, hs]⟩
  cases wake with
  | update mu =>
    cases mu with
    | none =>
      simp only [onlineSelect, ht, hu, Bool.not_true, Bool.false_eq_true, if_false]
      exact ⟨by simp, by simp, by simp, hcons⟩
    | some messages =>
      obtain ⟨x, evs, heq⟩ := onlineSelect_update_cases messages a ht hu
      rw [heq]
      have hm := send_ne_marks evs
      exact ⟨hm.1, hm.2.1, hm.2.2, setMsgCount_consistent a x hcons⟩
  | done err =>
    obtain ⟨cfg, Channels, UpdateName, PollInt, MsgCount, c, donec, eventc, stopc, updatec, t,
      idleOk⟩ := a
    simp only at hs hc ht hd hu
    subst hs ht hd hu
    cases c with
    | none => simp at hc
    | some cl => simp [onlineSelect, Logout, StopIdle, watchConsistent]
  | timer =>
    obtain ⟨cfg, Channels, UpdateName, PollInt, MsgCount, c, donec, eventc, stopc, updatec, t,
      idleOk⟩ := a
    simp only at hs hc ht hd hu
    subst hs ht hd hu
    cases c with
    | none => simp at hc
    | some cl => simp [onlineSelect, StopIdle, watchConsistent]

theorem Logout_idle (a : Account) (cl : Client) (hc : a.c = some cl) (hs : a.stopc = false) :
    Logout a = some { a with c := none } := by
  simp [Logout, hc, hs]

theorem Idle_ready (a : Account) (cl : Client) (hc : a.c = some cl) (hs : a.stopc = false) :
    Idle a =
      some { a with stopc := true, donec := true, updatec := true,
                    c := some { cl with Updates := true }, t := true } := by
  simp [Idle, hc, hs]

theorem onlineBody_consistent (w : IterWorld) (a : Account) (h : watchConsistent a) :
    Obs.abort ∉ (onlineBody w a).2 ∧ Obs.blocked ∉ (onlineBody w a).2 ∧
    (Obs.idle ∈ (onlineBody w a).2 → a.stopc = false) ∧
    watchConsistent (onlineBody w a).1 := by
  obtain ⟨hsc, ht, hd, hu⟩ := h
  cases hc : a.c with
  | none =>
    have hstop : a.stopc = false := by
      cases hs : a.stopc with
      | false => rfl
      | true => have := hsc hs; rw [hc] at this; simp at this
    simp only [onlineBody, hc, Option.isNone_none, if_true, PollPause]
    refine ⟨by simp, by simp, by simp, ?_⟩
    exact ⟨by simp [hstop], ht, hd, hu⟩
  | some cl =>
    cases hi : a.idleOk with
    | false =>
      obtain ⟨x, evs, heq⟩ := CheckForNew_cases w.select a
      have hm := send_ne_marks evs
      simp only [onlineBody, hc, Option.isNone_some, Bool.false_eq_true, if_false, hi,
        Bool.not_false, if_true, PollPause]
      rw [heq]
      refine ⟨?_, ?_, ?_, ?_⟩
      · simp only [List.cons_append, List.nil_append, List.mem_cons, not_or]
        exact ⟨by simp, by simp, hm.1⟩
      · simp only [List.cons_append, List.nil_append, List.mem_cons, not_or]
        exact ⟨by simp, by simp, hm.2.1⟩
      · intro hmem
        simp only [List.cons_append, List.nil_append, List.mem_cons] at hmem
        rcases hmem with hmem | hmem | hmem
        · cases hmem
        · cases hmem
        · exact absurd hmem hm.2.2
      · exact setMsgCount_consistent a x ⟨hsc, ht, hd, hu⟩
    | true =>
      cases hs : a.stopc with
      | true =>
        have hsel := onlineSelect_watching w.wake a hs (by rw [hc]; rfl) (by rw [ht, hs])
          (by rw [hd, hs]) (by rw [hu, hs])
        simp only [onlineBody, hc, Option.isNone_some, Bool.false_eq_true, if_false, hi,
          Bool.not_true, hs]
        exact ⟨hsel.1, hsel.2.1, fun hmem => absurd hmem hsel.2.2.1, hsel.2.2.2⟩
      | false =>
        rw [hs] at ht hd hu
        simp only [onlineBody, hc, Option.isNone_some, Bool.false_eq_true, if_false, hi,
          Bool.not_true, hs, Bool.not_false, if_true]
        rcases selectInbox_cases w.select a with ⟨err, hsel⟩ | ⟨x, hsel⟩
        · rw [hsel]
          simp only [Logout_idle a cl hc hs, PollPause, Option.isNone_none, if_true]
          refine ⟨by simp, by simp, by simp, ?_⟩
          refine ⟨?_, ?_, ?_, ?_⟩
          · intro h
            have h1 : a.stopc = true := h
            rw [hs] at h1
            cases h1
          · show a.t = a.stopc
            rw [ht, hs]
          · show a.donec = a.stopc
            rw [hd, hs]
          · show a.updatec = a.stopc
            rw [hu, hs]
        · rw [hsel]
          have hidle := Idle_ready { a with MsgCount := x } cl hc hs
          have hw := onlineSelect_watching w.wake
            { a with MsgCount := x, stopc := true, donec := true, updatec := true,
                     c := some { cl with Updates := true }, t := true }
            rfl rfl rfl rfl rfl
          simp only [hidle]
          refine ⟨?_, ?_, fun _ => trivial, hw.2.2.2⟩
          · simp only [List.cons_append, List.nil_append, List.mem_cons, not_or]
            exact ⟨by simp, by simp, hw.1⟩
          · simp only [List.cons_append, List.nil_append, List.mem_cons, not_or]
            exact ⟨by simp, by simp, hw.2.1⟩

theorem onlineIter_consistent (w : IterWorld) (a : Account) (h : watchConsistent a) :
    Obs.abort ∉ (onlineIter w a).2 ∧ Obs.blocked ∉ (onlineIter w a).2 ∧
    (Obs.idle ∈ (onlineIter w a).2 → a.stopc = false) ∧
    watchConsistent (onlineIter w a).1 := by
  cases hc : a.c with
  | some cl =>
    have hb := onlineBody_consistent w a h
    simp only [onlineIter, hc, Option.isNone_some, Bool.false_eq_true, if_false]
    exact hb
  | none =>
    obtain ⟨hsc, ht, hd, hu⟩ := h
    have hstop : a.stopc = false := by
      cases hs : a.stopc with
      | false => rfl
      | true => have := hsc hs; rw [hc] at this; simp at this
    have hl := Login_watch_fields w.login a
    have hcons : watchConsistent (Login w.login a).1 := by
      refine ⟨?_, ?_, ?_, ?_⟩
      · intro hs; rw [hl.1, hstop] at hs; cases hs
      · rw [hl.2.1, hl.1]; exact ht
      · rw [hl.2.2.1, hl.1]; exact hd
      · rw [hl.2.2.2, hl.1]; exact hu
    have hb := onlineBody_consistent w (Login w.login a).1 hcons
    simp only [onlineIter, hc, Option.isNone_none, if_true, List.mem_cons, not_or]
    refine ⟨⟨by simp, hb.1⟩, ⟨by simp, hb.2.1⟩, ?_, hb.2.2.2⟩
    intro _
    exact hstop

theorem onlineReach_consistent (a0 a : Account) (h0 : watchConsistent a0)
    (hr : OnlineReach a0 a) : watchConsistent a := by
  induction hr with
  | start => exact h0
  | pass a w _ _ ih => exact (onlineIter_consistent w a ih).2.2.2

/-- C12: started on an account with no watch handles set, the `Online` loop
keeps, at every loop head, an active push-watch (`stopc` set) only over a live
session (`c` set); and whatever the login, the selection, the updates, the
exchange and the refresh timer do in the next pass, the pass does not abort
and does not block on a nil channel, and it calls `Idle` only when `stopc` was
nil at the loop head. `Idle` aborts exactly when `stopc` is set or the session
is nil, `PollPause` exactly when the session is live and `idleOk` is true, so
neither contract failure is reachable. -/
theorem Online_watch_invariant (a0 a : Account) (hs : a0.stopc = false)
    (hd : a0.donec = false) (hu : a0.updatec = false) (ht : a0.t = false)
    (hr : OnlineReach a0 a) :
    (a.stopc = true → a.c.isSome = true) ∧
    (∀ w : IterWorld,
      Obs.abort ∉ (onlineIter w a).2 ∧ Obs.blocked ∉ (onlineIter w a).2 ∧
      (Obs.idle ∈ (onlineIter w a).2 → a.stopc = false)) ∧
    (∀ b : Account, Idle b = none ↔ (b.stopc = true ∨ b.c = none)) ∧
    (∀ b : Account, PollPause b = false ↔ (b.c.isSome = true ∧ b.idleOk = true)) := by
  have h0 : watchConsistent a0 := by
    refine ⟨?_, ?_, ?_, ?_⟩
    · intro h; rw [hs] at h; cases h
    · rw [ht, hs]
    · rw [hd, hs]
    · rw [hu, hs]
  have ha := onlineReach_consistent a0 a h0 hr
  refine ⟨ha.1, ?_, Idle_none_iff, PollPause_false_iff⟩
  intro w
  have hw := onlineIter_consistent w a ha
  exact ⟨hw.1, hw.2.1, hw.2.2.1⟩

theorem Online_watch_invariant_witness :
    ((onlineIter watchPass (acctNamed "A" "a:INBOX")).1.stopc = true →
      (onlineIter watchPass (acctNamed "A" "a:INBOX")).1.c.isSome = true) ∧
    (∀ w : IterWorld,
      Obs.abort ∉ (onlineIter w (onlineIter watchPass (acctNamed "A" "a:INBOX")).1).2 ∧
      Obs.blocked ∉ (onlineIter w (onlineIter watchPass (acctNamed "A" "a:INBOX")).1).2 ∧
      (Obs.idle ∈ (onlineIter w (onlineIter watchPass (acctNamed "A" "a:INBOX")).1).2 →
        (onlineIter watchPass (acctNamed "A" "a:INBOX")).1.stopc = false)) ∧
    (∀ b : Account, Idle b = none ↔ (b.stopc = true ∨ b.c = none)) ∧
    (∀ b : Account, PollPause b = false ↔ (b.c.isSome = true ∧ b.idleOk = true)) :=
  Online_watch_invariant (acctNamed "A" "a:INBOX")
    (onlineIter watchPass (acctNamed "A" "a:INBOX")).1 rfl rfl rfl rfl
    (OnlineReach.pass _ watchPass OnlineReach.start (by decide))

/-! ## The configuration file -/

theorem goSlice_far_none_iff (b : List UInt8) :
    goSlice b 1 ((b.length : Int) - 1) = none ↔ b.length < 2 := by
  unfold goSlice
  constructor
  · intro h
    by_contra hlen
    have hc : (0 : Int) ≤ 1 ∧ (1 : Int) ≤ (b.length : Int) - 1 ∧
        (b.length : Int) - 1 ≤ (b.length : Int) := by omega
    rw [if_pos hc] at h
    cases h
  · intro hlen
    have hc : ¬ ((0 : Int) ≤ 1 ∧ (1 : Int) ≤ (b.length : Int) - 1 ∧
        (b.length : Int) - 1 ≤ (b.length : Int)) := by omega
    rw [if_neg hc]

theorem resolveChannels_head_panics (stores : List (String × IMAPStore)) (ch : Channel)
    (rest : List Channel) (h : (goBytes ch.Far).length < 2) :
    resolveChannels stores (ch :: rest) = Parsed.panicked := by
  have hs := (goSlice_far_none_iff (goBytes ch.Far)).2 h
  simp only [resolveChannels, hs]

theorem resolveChannels_total (chlist : List Channel) :
    ∀ stores : List (String × IMAPStore),
      (∀ ch ∈ chlist, 2 ≤ (goBytes ch.Far).length) →
      resolveChannels stores chlist ≠ Parsed.panicked := by
  induction chlist with
  | nil =>
    intro stores _
    simp [resolveChannels]
  | cons ch rest ih =>
    intro stores hall
    have hlen := hall ch (List.mem_cons_self ch rest)
    have hrest : ∀ c ∈ rest, 2 ≤ (goBytes c.Far).length :=
      fun c hc => hall c (List.mem_cons_of_mem ch hc)
    cases hs : goSlice (goBytes ch.Far) 1 (((goBytes ch.Far).length : Int) - 1) with
    | none =>
      have := (goSlice_far_none_iff (goBytes ch.Far)).1 hs
      omega
    | some far =>
      simp only [resolveChannels, hs]
      cases hf : stores.find? (fun p => decide (goBytes p.1 = far)) with
      | none => simp
      | some p =>
        obtain ⟨k, st⟩ := p
        simp only
        exact ih _ hrest

/-- C13 fails on the code: for the configuration lines `Channel c` and `Far x`
the channel is accepted by `finishSection` (its `Far` is "x", not empty), the
slice `Far[1 : len(Far)-1]` is `Far[1:0]`, out of bounds, and `parseFile`
ends in a panic instead of returning the store map or an error; the same
holds for `Far :`. -/
theorem parseFile_far_one_byte :
    parseFile plainEnv ["Channel c", "Far x"] none = Parsed.panicked ∧
    (match parseLines plainEnv parseInit ["Channel c", "Far x"] with
      | Parsed.ok s =>
        match finishSection s with
        | .ok s1 => some s1.chlist
        | .error _ => none
      | _ => none) = some [{ Name := "c", Far := "x" }] ∧
    goSlice (goBytes "x") 1 (((goBytes "x").length : Int) - 1) = none ∧
    parseFile plainEnv ["Channel c", "Far :"] none = Parsed.panicked := by
  decide

end Imapidle
